import Mathlib

/-!
Shallow embedding of the MLD many-to-many routing engine
(`src/engine/routing_algorithms/many_to_many_mld.cpp`) and proofs about it.

Machine integers (`EdgeWeight`, `EdgeDuration`) are modelled as `Int`;
`EdgeDistance` is a C++ `double` carrying exact offset sums in the fragments
the claims touch, modelled as `Int` with an explicit sentinel.  Node and level
identifiers are `Nat` with the C++ sentinel values spelled out.
-/

namespace OsrmMld

abbrev NodeID := Nat
abbrev EdgeID := Nat
abbrev LevelID := Nat
abbrev CellID := Nat
abbrev EdgeWeight := Int
abbrev EdgeDuration := Int
abbrev EdgeDistance := Int

/-- `INVALID_LEVEL_ID = std::numeric_limits<LevelID>::max()` for `LevelID = std::uint8_t`. -/
def INVALID_LEVEL_ID : LevelID := 255

/-- `INVALID_EDGE_WEIGHT = std::numeric_limits<EdgeWeight>::max()` for 32-bit `EdgeWeight`. -/
def INVALID_EDGE_WEIGHT : EdgeWeight := 2147483647

/-- `MAXIMAL_EDGE_DURATION = std::numeric_limits<EdgeDuration>::max()`. -/
def MAXIMAL_EDGE_DURATION : EdgeDuration := 2147483647

/-- `INVALID_EDGE_DISTANCE`: the unreachable-distance sentinel. -/
def INVALID_EDGE_DISTANCE : EdgeDistance := 2147483647

/-- `SPECIAL_NODEID = std::numeric_limits<NodeID>::max()` for 32-bit node ids. -/
def SPECIAL_NODEID : NodeID := 4294967295

/-- `FORWARD_DIRECTION` as in the C++ template parameter `bool DIRECTION`. -/
def FORWARD_DIRECTION : Bool := true

/-- `REVERSE_DIRECTION` as in the C++ template parameter `bool DIRECTION`. -/
def REVERSE_DIRECTION : Bool := false

/-- Lexicographic `<` on `(weight, duration)` pairs: `std::tie(w, d) < std::tie(w', d')`. -/
def lexLt (a b : Int × Int) : Bool :=
  a.1 < b.1 || (a.1 == b.1 && a.2 < b.2)

/-- A segment id of a phantom node: `SegmentID {id, enabled}`. -/
structure SegmentID where
  id : NodeID
  enabled : Bool
  deriving Repr, DecidableEq, Inhabited

/-- A phantom node.  The snap data the engine reads is kept as fields:
the `GetForwardWeightPlusOffset`, `GetForwardDuration`, `GetForwardDistance`
accessors (and their reverse analogues) and the four role-validity
predicates, which the spec's data model (§3) presents as queryable values of
the descriptor.  The predicate fields are modelled from the spec because the
class body is not under `src/`. -/
structure PhantomNode where
  forward_segment_id : SegmentID
  reverse_segment_id : SegmentID
  forward_weight : EdgeWeight
  reverse_weight : EdgeWeight
  forward_duration : EdgeDuration
  reverse_duration : EdgeDuration
  forward_distance : EdgeDistance
  reverse_distance : EdgeDistance
  is_valid_forward_source : Bool
  is_valid_reverse_source : Bool
  is_valid_forward_target : Bool
  is_valid_reverse_target : Bool
  deriving Repr, DecidableEq, Inhabited

/-- Per-edge data of the graph facade: direction bits, weight, duration. -/
structure EdgeData where
  forward : Bool
  backward : Bool
  weight : EdgeWeight
  duration : EdgeDuration
  deriving Repr, DecidableEq

/-- A packed edge `(from, to, from_clique_arc)`. -/
abbrev PackedEdge := NodeID × NodeID × Bool

abbrev PackedPath := List PackedEdge

/-- The read-only data facade, multi-level partition and cell metric, as the
functions the search consumes.  `unpackNodes` stands for
`unpackPathAndCalculateDistance`'s unpacked node sequence and `edgeDistance`
for `computeEdgeDistance`; both live outside `src/` and are modelled from the
spec (§4.5) as abstract per-facade functions. -/
structure Facade where
  numNodes : Nat
  maxBorderNodeID : Nat
  excludeNode : NodeID → Bool
  adjacentEdges : NodeID → List EdgeID
  edgeData : EdgeID → EdgeData
  edgeTarget : EdgeID → NodeID
  borderEdges : LevelID → NodeID → List EdgeID
  numLevels : Nat
  highestDifferentLevel : NodeID → NodeID → LevelID
  cellOf : LevelID → NodeID → CellID
  destinationNodes : LevelID → CellID → List NodeID
  sourceNodes : LevelID → CellID → List NodeID
  outWeights : LevelID → CellID → NodeID → List EdgeWeight
  outDurations : LevelID → CellID → NodeID → List EdgeDuration
  inWeights : LevelID → CellID → NodeID → List EdgeWeight
  inDurations : LevelID → CellID → NodeID → List EdgeDuration
  edgeDistance : NodeID → EdgeDistance
  unpackNodes : PackedPath → NodeID → List NodeID

/-- Heap payload `ManyToManyMultiLayerDijkstraHeapData {parent, from_clique_arc, duration}`.
The C++ two-argument constructor `{parent, duration}` sets `from_clique_arc = false`. -/
structure HeapData where
  parent : NodeID
  from_clique_arc : Bool
  duration : EdgeDuration
  deriving Repr, DecidableEq

/-- One slot of the query heap's node storage: key, payload and whether the
node is still queued (not yet popped by `DeleteMin`). -/
structure HeapEntry where
  key : EdgeWeight
  data : HeapData
  active : Bool
  deriving Repr, DecidableEq

/-- The query heap.  `entries` is the node storage, newest insertion first
(the C++ index map points at the most recent `Insert` of a node, which is the
first match here).  `insertTrace` is ghost instrumentation recording the node
of every `Insert` call, newest first; it does not influence any operation. -/
structure QueryHeap where
  entries : List (NodeID × HeapEntry)
  insertTrace : List NodeID
  deriving Repr, DecidableEq

def emptyHeap : QueryHeap := ⟨[], []⟩

def QueryHeap.wasInserted (h : QueryHeap) (n : NodeID) : Bool :=
  (h.entries.find? (fun e => e.1 == n)).isSome

def QueryHeap.insert (h : QueryHeap) (n : NodeID) (k : EdgeWeight) (d : HeapData) :
    QueryHeap :=
  ⟨(n, ⟨k, d, true⟩) :: h.entries, n :: h.insertTrace⟩

def QueryHeap.getKey (h : QueryHeap) (n : NodeID) : EdgeWeight :=
  ((h.entries.find? (fun e => e.1 == n)).map (fun e => e.2.key)).getD 0

def QueryHeap.getData (h : QueryHeap) (n : NodeID) : HeapData :=
  ((h.entries.find? (fun e => e.1 == n)).map (fun e => e.2.data)).getD ⟨0, false, 0⟩

/-- Replace the first element satisfying `p` by its image under `g`. -/
def updateFirst {α : Type} (p : α → Bool) (g : α → α) : List α → List α
  | [] => []
  | a :: rest => if p a then g a :: rest else a :: updateFirst p g rest

/-- `GetData(n) = d` (assignment through the mutable reference). -/
def QueryHeap.setData (h : QueryHeap) (n : NodeID) (d : HeapData) : QueryHeap :=
  ⟨updateFirst (fun e => e.1 == n) (fun e => (e.1, { e.2 with data := d })) h.entries,
   h.insertTrace⟩

def QueryHeap.decreaseKey (h : QueryHeap) (n : NodeID) (k : EdgeWeight) : QueryHeap :=
  ⟨updateFirst (fun e => e.1 == n) (fun e => (e.1, { e.2 with key := k })) h.entries,
   h.insertTrace⟩

def QueryHeap.isEmpty (h : QueryHeap) : Bool :=
  h.entries.all (fun e => !e.2.active)

/-- Index and key of the first queued entry with minimal key, if any. -/
def minActiveAux : List (NodeID × HeapEntry) → Nat → Option (Nat × EdgeWeight)
  | [], _ => none
  | e :: rest, i =>
    let tail := minActiveAux rest (i + 1)
    if e.2.active then
      match tail with
      | none => some (i, e.2.key)
      | some (j, k) => if e.2.key ≤ k then some (i, e.2.key) else some (j, k)
    else tail

/-- `DeleteMin`: pop a queued entry of minimal key (ties by storage order);
the entry stays in the node storage (so `GetKey`/`GetData` keep working) but
is no longer queued. -/
def QueryHeap.deleteMin (h : QueryHeap) : Option (NodeID × QueryHeap) :=
  match minActiveAux h.entries 0 with
  | none => none
  | some (i, _) =>
    match h.entries.get? i with
    | none => none
    | some e =>
      some (e.1, ⟨h.entries.set i (e.1, { e.2 with active := false }), h.insertTrace⟩)

/-- The stored `(key, duration)` pair of a node, if it was ever inserted. -/
def QueryHeap.entryPair (h : QueryHeap) (n : NodeID) : Option (EdgeWeight × EdgeDuration) :=
  (h.entries.find? (fun e => e.1 == n)).map (fun e => (e.2.key, e.2.data.duration))

/-- The stored key and full payload of a node, if it was ever inserted. -/
def QueryHeap.entryKD (h : QueryHeap) (n : NodeID) : Option (EdgeWeight × HeapData) :=
  (h.entries.find? (fun e => e.1 == n)).map (fun e => (e.2.key, e.2.data))

/-! ## Level resolution (`getNodeQueryLevel` overloads) -/

/-- The `highest_diffrent_level` lambda of the single-phantom overload:
the highest different level of the segment and the node when the segment is
enabled, else `INVALID_LEVEL_ID`. -/
def highestDiffrentLevel (f : Facade) (node : NodeID) (seg : SegmentID) : LevelID :=
  if seg.enabled then f.highestDifferentLevel seg.id node else INVALID_LEVEL_ID

/-- `getNodeQueryLevel(partition, node, phantom_node)` (lines 25–40). -/
def getNodeQueryLevelPhantom (f : Facade) (node : NodeID) (phantom_node : PhantomNode) :
    LevelID :=
  min (highestDiffrentLevel f node phantom_node.forward_segment_id)
      (highestDiffrentLevel f node phantom_node.reverse_segment_id)

/-- `getNodeQueryLevel(partition, node, phantom_node, maximal_level)` (lines 42–54). -/
def getNodeQueryLevelCapped (f : Facade) (node : NodeID) (phantom_node : PhantomNode)
    (maximal_level : LevelID) : LevelID :=
  let node_level := getNodeQueryLevelPhantom f node phantom_node
  if maximal_level ≤ node_level then INVALID_LEVEL_ID else node_level

/-- The `min_level` lambda of the multi-phantom overload (lines 63–76). -/
def minLevel (f : Facade) (node : NodeID) (phantom_node : PhantomNode) : LevelID :=
  let forward_level :=
    if phantom_node.forward_segment_id.enabled then
      f.highestDifferentLevel node phantom_node.forward_segment_id.id
    else INVALID_LEVEL_ID
  let reverse_level :=
    if phantom_node.reverse_segment_id.enabled then
      f.highestDifferentLevel node phantom_node.reverse_segment_id.id
    else INVALID_LEVEL_ID
  min forward_level reverse_level

/-- `getNodeQueryLevel(partition, node, phantom_nodes, phantom_index, phantom_indices)`
(lines 56–86). -/
def getNodeQueryLevelMulti (f : Facade) (node : NodeID) (phantom_nodes : List PhantomNode)
    (phantom_index : Nat) (phantom_indices : List Nat) : LevelID :=
  phantom_indices.foldl
    (fun result index => min result (minLevel f node (phantom_nodes.getD index default)))
    (minLevel f node (phantom_nodes.getD phantom_index default))

/-- The variadic `Args...` tail of `relaxOutgoingEdges`, selecting which
`getNodeQueryLevel` overload resolves the level. -/
inductive LevelArgs where
  | phantom (phantom_node : PhantomNode)
  | capped (phantom_node : PhantomNode) (maximal_level : LevelID)
  | multi (phantom_nodes : List PhantomNode) (phantom_index : Nat)
      (phantom_indices : List Nat)

/-- `getNodeQueryLevel(partition, node, args...)`. -/
def getNodeQueryLevelArgs (f : Facade) (node : NodeID) : LevelArgs → LevelID
  | .phantom p => getNodeQueryLevelPhantom f node p
  | .capped p m => getNodeQueryLevelCapped f node p m
  | .multi pns pi pis => getNodeQueryLevelMulti f node pns pi pis

/-! ## Edge relaxation (`relaxOutgoingEdges`, lines 88–207) -/

/-- The insert-or-decrease-key step shared by the shortcut and border loops:
insert `to` if unseen, else if `(w, dur)` is lexicographically below the
stored `(key, duration)` overwrite the payload and decrease the key. -/
def updateHeapEntry (h : QueryHeap) (tgt : NodeID) (w : EdgeWeight) (dur : EdgeDuration)
    (parent : NodeID) (flag : Bool) : QueryHeap :=
  if !h.wasInserted tgt then
    h.insert tgt w ⟨parent, flag, dur⟩
  else if lexLt (w, dur) (h.getKey tgt, (h.getData tgt).duration) then
    (h.setData tgt ⟨parent, flag, dur⟩).decreaseKey tgt w
  else h

/-- Zip a cell's boundary nodes with the parallel shortcut weight and
duration ranges, as the C++ loop walks the three in lockstep. -/
def zipShortcuts (nodes : List NodeID) (ws : List EdgeWeight) (ds : List EdgeDuration) :
    List (NodeID × EdgeWeight × EdgeDuration) :=
  (nodes.zip (ws.zip ds)).map (fun t => (t.1, t.2.1, t.2.2))

/-- One shortcut-table pass (lines 115–141 forward, 145–171 backward):
skip invalid weights and self targets, otherwise insert-or-improve with
`from_clique_arc = true`. -/
def relaxShortcuts (node : NodeID) (weight : EdgeWeight) (duration : EdgeDuration)
    (trips : List (NodeID × EdgeWeight × EdgeDuration)) (h : QueryHeap) : QueryHeap :=
  trips.foldl
    (fun h t =>
      let tgt := t.1
      let shortcut_weight := t.2.1
      let shortcut_duration := t.2.2
      if shortcut_weight ≠ INVALID_EDGE_WEIGHT ∧ node ≠ tgt then
        updateHeapEntry h tgt (weight + shortcut_weight) (duration + shortcut_duration)
          node true
      else h)
    h

/-- The border-edge pass (lines 175–206): edges with the direction bit set,
excluded targets skipped, insert-or-improve with `from_clique_arc = false`. -/
def relaxBorderEdges (f : Facade) (dir : Bool) (node : NodeID) (weight : EdgeWeight)
    (duration : EdgeDuration) (level : LevelID) (h : QueryHeap) : QueryHeap :=
  (f.borderEdges level node).foldl
    (fun h edge =>
      let data := f.edgeData edge
      if (if dir = FORWARD_DIRECTION then data.forward else data.backward) then
        let tgt := f.edgeTarget edge
        if f.excludeNode tgt then h
        else updateHeapEntry h tgt (weight + data.weight) (duration + data.duration) node false
      else h)
    h

/-- `relaxOutgoingEdges<DIRECTION>` (lines 88–207). -/
def relaxOutgoingEdges (f : Facade) (dir : Bool) (node : NodeID) (weight : EdgeWeight)
    (duration : EdgeDuration) (h : QueryHeap) (args : LevelArgs) : QueryHeap :=
  let level := getNodeQueryLevelArgs f node args
  if level = INVALID_LEVEL_ID then h
  else
    let node_data := h.getData node
    let h1 :=
      if 1 ≤ level ∧ !node_data.from_clique_arc then
        let cell := f.cellOf level node
        if dir = FORWARD_DIRECTION then
          relaxShortcuts node weight duration
            (zipShortcuts (f.destinationNodes level cell) (f.outWeights level cell node)
              (f.outDurations level cell node)) h
        else
          relaxShortcuts node weight duration
            (zipShortcuts (f.sourceNodes level cell) (f.inWeights level cell node)
              (f.inDurations level cell node)) h
      else h
    relaxBorderEdges f dir node weight duration level h1

/-! ## Candidate offers of a relaxation call

The `(to, weight, duration, parent, flag)` records a `relaxOutgoingEdges`
call feeds into the insert-or-decrease-key rule.  They depend only on the
facade and the settled node, not on the evolving heap, which lets the
relaxation be read as a fold of `updateHeapEntry` over this list. -/

structure Offer where
  toNode : NodeID
  weight : EdgeWeight
  duration : EdgeDuration
  parent : NodeID
  flag : Bool
  deriving Repr, DecidableEq

def applyOffer (h : QueryHeap) (o : Offer) : QueryHeap :=
  updateHeapEntry h o.toNode o.weight o.duration o.parent o.flag

def shortcutOffers (node : NodeID) (weight : EdgeWeight) (duration : EdgeDuration)
    (trips : List (NodeID × EdgeWeight × EdgeDuration)) : List Offer :=
  trips.filterMap
    (fun t =>
      if t.2.1 ≠ INVALID_EDGE_WEIGHT ∧ node ≠ t.1 then
        some ⟨t.1, weight + t.2.1, duration + t.2.2, node, true⟩
      else none)

def borderOffers (f : Facade) (dir : Bool) (node : NodeID) (weight : EdgeWeight)
    (duration : EdgeDuration) (level : LevelID) : List Offer :=
  (f.borderEdges level node).filterMap
    (fun edge =>
      let data := f.edgeData edge
      if (if dir = FORWARD_DIRECTION then data.forward else data.backward) then
        let tgt := f.edgeTarget edge
        if f.excludeNode tgt then none
        else some ⟨tgt, weight + data.weight, duration + data.duration, node, false⟩
      else none)

/-- All candidates a `relaxOutgoingEdges` call offers, in program order. -/
def relaxOffers (f : Facade) (dir : Bool) (node : NodeID) (weight : EdgeWeight)
    (duration : EdgeDuration) (h : QueryHeap) (args : LevelArgs) : List Offer :=
  let level := getNodeQueryLevelArgs f node args
  if level = INVALID_LEVEL_ID then []
  else
    (if 1 ≤ level ∧ !(h.getData node).from_clique_arc then
      (if dir = FORWARD_DIRECTION then
        shortcutOffers node weight duration
          (zipShortcuts (f.destinationNodes level (f.cellOf level node))
            (f.outWeights level (f.cellOf level node) node)
            (f.outDurations level (f.cellOf level node) node))
      else
        shortcutOffers node weight duration
          (zipShortcuts (f.sourceNodes level (f.cellOf level node))
            (f.inWeights level (f.cellOf level node) node)
            (f.inDurations level (f.cellOf level node) node)))
    else []) ++ borderOffers f dir node weight duration level

/-! ## Unidirectional search (`oneToManySearch`, lines 212–552) -/

/-- One entry of the `target_nodes_index` multimap:
graph node ↦ (result slot, target-side weight, target-side duration). -/
abbrev TargetIndexEntry := NodeID × Nat × EdgeWeight × EdgeDuration

/-- The mutable state of `oneToManySearch`.  `distWrites` is ghost
instrumentation recording every index at which the code writes the
`distances` vector (`List.set` silently drops an out-of-range write, the
C++ `operator[]` does not); it does not influence any other field. -/
structure OTMState where
  heap : QueryHeap
  weights : List EdgeWeight
  durations : List EdgeDuration
  distances : List EdgeDistance
  target_nodes : List NodeID
  target_nodes_index : List TargetIndexEntry
  distWrites : List Nat
  deriving Repr, DecidableEq

/-- A `distances[i] = v` write, with the index recorded in the ghost trace. -/
def OTMState.setDistance (st : OTMState) (i : Nat) (v : EdgeDistance) : OTMState :=
  { st with distances := st.distances.set i v, distWrites := i :: st.distWrites }

/-- The target-index build loop (lines 231–278): for every result slot, add
the valid halves of the target phantom to the multimap and stash the
phantom's distance offset in `distances[target_phantom_index]`, negating
values in the reverse direction. -/
def buildTargetIndex (dir : Bool) (phantom_nodes : List PhantomNode)
    (phantom_indices : List Nat) (st : OTMState) : OTMState :=
  (List.range phantom_indices.length).foldl
    (fun st index =>
      let target_phantom_index := phantom_indices.getD index 0
      let phantom_node := phantom_nodes.getD target_phantom_index default
      if dir = FORWARD_DIRECTION then
        let st :=
          if phantom_node.is_valid_forward_target then
            { st with target_nodes_index := st.target_nodes_index ++
                [(phantom_node.forward_segment_id.id,
                  index, phantom_node.forward_weight, phantom_node.forward_duration)] }
              |>.setDistance target_phantom_index phantom_node.forward_distance
          else st
        if phantom_node.is_valid_reverse_target then
          { st with target_nodes_index := st.target_nodes_index ++
              [(phantom_node.reverse_segment_id.id,
                index, phantom_node.reverse_weight, phantom_node.reverse_duration)] }
            |>.setDistance target_phantom_index phantom_node.reverse_distance
        else st
      else
        let st :=
          if phantom_node.is_valid_forward_source then
            { st with target_nodes_index := st.target_nodes_index ++
                [(phantom_node.forward_segment_id.id,
                  index, -phantom_node.forward_weight, -phantom_node.forward_duration)] }
              |>.setDistance target_phantom_index (-phantom_node.forward_distance)
          else st
        if phantom_node.is_valid_reverse_source then
          { st with target_nodes_index := st.target_nodes_index ++
              [(phantom_node.reverse_segment_id.id,
                index, -phantom_node.reverse_weight, -phantom_node.reverse_duration)] }
            |>.setDistance target_phantom_index (-phantom_node.reverse_distance)
        else st)
    st

/-- The body of `update_values` for the multimap entries keyed by `node`
(lines 286–316), walking the remaining entry list: a candidate with
`path_weight = weight + target_weight ≥ 0` is erased after a possible commit,
a negative one is kept. -/
def updateValuesAux (node : NodeID) (weight : EdgeWeight) (duration : EdgeDuration) :
    List TargetIndexEntry → List EdgeWeight → List EdgeDuration → List NodeID →
    List TargetIndexEntry × List EdgeWeight × List EdgeDuration × List NodeID
  | [], ws, ds, ts => ([], ws, ds, ts)
  | e :: rest, ws, ds, ts =>
    if e.1 == node then
      let index := e.2.1
      let target_weight := e.2.2.1
      let target_duration := e.2.2.2
      let path_weight := weight + target_weight
      if 0 ≤ path_weight then
        let path_duration := duration + target_duration
        let wdt :=
          if lexLt (path_weight, path_duration) (ws.getD index 0, ds.getD index 0) then
            (ws.set index path_weight, ds.set index path_duration, ts.set index node)
          else (ws, ds, ts)
        updateValuesAux node weight duration rest wdt.1 wdt.2.1 wdt.2.2
      else
        let r := updateValuesAux node weight duration rest ws ds ts
        (e :: r.1, r.2)
    else
      let r := updateValuesAux node weight duration rest ws ds ts
      (e :: r.1, r.2)

/-- The `update_values` lambda of `oneToManySearch`. -/
def update_values (node : NodeID) (weight : EdgeWeight) (duration : EdgeDuration)
    (st : OTMState) : OTMState :=
  let r := updateValuesAux node weight duration st.target_nodes_index st.weights
    st.durations st.target_nodes
  { st with target_nodes_index := r.1, weights := r.2.1, durations := r.2.2.1,
            target_nodes := r.2.2.2 }

/-- The `insert_node` lambda (lines 318–338).  Note the C++ conditional
`DIRECTION == FORWARD_DIRECTION ? data.forward : data.backward && !WasInserted(...)`:
the `WasInserted` guard binds to the backward branch only. -/
def insert_node (f : Facade) (dir : Bool) (st : OTMState) (node : NodeID)
    (initial_weight : EdgeWeight) (initial_duration : EdgeDuration) : OTMState :=
  let st := update_values node initial_weight initial_duration st
  let heap := st.heap.insert node initial_weight ⟨node, false, initial_duration⟩
  let heap :=
    (f.adjacentEdges node).foldl
      (fun heap edge =>
        let data := f.edgeData edge
        if (if dir = FORWARD_DIRECTION then data.forward
            else data.backward && !heap.wasInserted (f.edgeTarget edge)) then
          heap.insert (f.edgeTarget edge) (data.weight + initial_weight)
            ⟨node, false, data.duration + initial_duration⟩
        else heap)
      heap
  { st with heap := heap }

/-- The source seeding block (lines 340–380); also yields
`source_phantom_offset` (which the code only prints). -/
def otmSeed (f : Facade) (dir : Bool) (phantom_nodes : List PhantomNode)
    (source_phantom_index : Nat) (st : OTMState) : OTMState × EdgeDistance :=
  let source_phantom_node := phantom_nodes.getD source_phantom_index default
  if dir = FORWARD_DIRECTION then
    let r :=
      if source_phantom_node.is_valid_forward_source then
        (insert_node f dir st source_phantom_node.forward_segment_id.id
          (-source_phantom_node.forward_weight) (-source_phantom_node.forward_duration),
         -source_phantom_node.forward_distance)
      else (st, 0)
    if source_phantom_node.is_valid_reverse_source then
      (insert_node f dir r.1 source_phantom_node.reverse_segment_id.id
        (-source_phantom_node.reverse_weight) (-source_phantom_node.reverse_duration),
       -source_phantom_node.reverse_distance)
    else r
  else
    let r :=
      if source_phantom_node.is_valid_forward_target then
        (insert_node f dir st source_phantom_node.forward_segment_id.id
          source_phantom_node.forward_weight source_phantom_node.forward_duration,
         source_phantom_node.forward_distance)
      else (st, 0)
    if source_phantom_node.is_valid_reverse_target then
      (insert_node f dir r.1 source_phantom_node.reverse_segment_id.id
        source_phantom_node.reverse_weight source_phantom_node.reverse_duration,
       source_phantom_node.reverse_distance)
    else r

/-- The main settle loop (lines 382–401), fuelled: while the heap and the
multimap are both non-empty, pop the minimum, run `update_values`, relax. -/
def otmLoop (f : Facade) (dir : Bool) (phantom_nodes : List PhantomNode)
    (source_phantom_index : Nat) (phantom_indices : List Nat) :
    Nat → OTMState → OTMState
  | 0, st => st
  | fuel + 1, st =>
    if st.heap.isEmpty || st.target_nodes_index.isEmpty then st
    else
      match st.heap.deleteMin with
      | none => st
      | some (node, heap) =>
        let weight := heap.getKey node
        let duration := (heap.getData node).duration
        let st := update_values node weight duration { st with heap := heap }
        let st := { st with heap :=
          (relaxOutgoingEdges f dir node weight duration st.heap
            (.multi phantom_nodes source_phantom_index phantom_indices)) }
        otmLoop f dir phantom_nodes source_phantom_index phantom_indices fuel st

/-- `retrievePackedPathFromSingleManyToManyHeap` — modelled from the spec:
declared in `routing_base_mld.hpp`, not under `src/`.  Per spec §4.5 it walks
the heap's parent chain from the given node, emitting packed edges
`(parent, current, from_shortcut)` from the node backwards; the caller
reverses the result into source-to-node order. -/
def retrievePackedPathFromSingleManyToManyHeap (h : QueryHeap) :
    Nat → NodeID → PackedPath
  | 0, _ => []
  | fuel + 1, current =>
    match h.entryKD current with
    | none => []
    | some (_, data) =>
      if data.parent == current then []
      else (data.parent, current, data.from_clique_arc) ::
        retrievePackedPathFromSingleManyToManyHeap h fuel data.parent

/-- The distance block of `oneToManySearch` (lines 403–549), one result slot
per iteration.  The diagnostic `std::cout` statements are elided. -/
def otmDistanceBlock (f : Facade) (dir : Bool) (fuel : Nat)
    (phantom_nodes : List PhantomNode) (source_phantom_index : Nat)
    (phantom_indices : List Nat) (st : OTMState) : OTMState :=
  (List.range phantom_indices.length).foldl
    (fun st target_phantom_index =>
      if target_phantom_index == source_phantom_index ||
          target_phantom_index == source_phantom_index % phantom_indices.length then
        st.setDistance target_phantom_index 0
      else
        let target_node_id := st.target_nodes.getD target_phantom_index 0
        let target_phantom_node :=
          phantom_nodes.getD (phantom_indices.getD target_phantom_index 0) default
        let source_phantom_node := phantom_nodes.getD source_phantom_index default
        let packed_path :=
          (retrievePackedPathFromSingleManyToManyHeap st.heap fuel target_node_id).reverse
        let st :=
          if packed_path.isEmpty then
            if dir = FORWARD_DIRECTION then
              if source_phantom_node.is_valid_forward_source &&
                  target_phantom_node.is_valid_forward_target &&
                  source_phantom_node.forward_distance < target_phantom_node.forward_distance
              then
                st.setDistance target_phantom_index
                  (target_phantom_node.forward_distance - source_phantom_node.forward_distance)
              else if source_phantom_node.is_valid_reverse_source &&
                  target_phantom_node.is_valid_reverse_target then
                st.setDistance target_phantom_index
                  (target_phantom_node.reverse_distance - source_phantom_node.reverse_distance)
              else st
            else
              if source_phantom_node.is_valid_forward_target &&
                  target_phantom_node.is_valid_forward_source &&
                  target_phantom_node.forward_distance < source_phantom_node.forward_distance
              then
                st.setDistance target_phantom_index
                  (source_phantom_node.forward_distance - target_phantom_node.forward_distance)
              else if source_phantom_node.is_valid_reverse_target &&
                  target_phantom_node.is_valid_reverse_source then
                st.setDistance target_phantom_index
                  (source_phantom_node.reverse_distance - target_phantom_node.reverse_distance)
              else st
          else st
        if !packed_path.isEmpty then
          let unpacked_nodes := f.unpackNodes packed_path target_node_id
          let distSum :=
            (unpacked_nodes.dropLast.map f.edgeDistance).foldl (· + ·) 0
          st.setDistance target_phantom_index
            (st.distances.getD target_phantom_index 0 + distSum)
        else st)
    st

/-- `oneToManySearch<DIRECTION>` (lines 212–552), returning the final state.
The Dijkstra loop and the parent-chain walks are fuelled. -/
def oneToManySearchState (dir : Bool) (fuel : Nat) (f : Facade)
    (phantom_nodes : List PhantomNode) (source_phantom_index : Nat)
    (phantom_indices : List Nat) (calculate_distance : Bool) : OTMState :=
  let n := phantom_indices.length
  let st : OTMState :=
    { heap := emptyHeap
      weights := List.replicate n INVALID_EDGE_WEIGHT
      durations := List.replicate n MAXIMAL_EDGE_DURATION
      distances := List.replicate n INVALID_EDGE_DISTANCE
      target_nodes := List.replicate n SPECIAL_NODEID
      target_nodes_index := []
      distWrites := [] }
  let st := buildTargetIndex dir phantom_nodes phantom_indices st
  let st := (otmSeed f dir phantom_nodes source_phantom_index st).1
  let st := otmLoop f dir phantom_nodes source_phantom_index phantom_indices fuel st
  if calculate_distance then
    otmDistanceBlock f dir fuel phantom_nodes source_phantom_index phantom_indices st
  else st

/-- The `(durations, distances)` pair `oneToManySearch` returns. -/
def oneToManySearch (dir : Bool) (fuel : Nat) (f : Facade)
    (phantom_nodes : List PhantomNode) (source_phantom_index : Nat)
    (phantom_indices : List Nat) (calculate_distance : Bool) :
    List EdgeDuration × List EdgeDistance :=
  let st := oneToManySearchState dir fuel f phantom_nodes source_phantom_index
    phantom_indices calculate_distance
  (st.durations, st.distances)

/-! ## Bidirectional search (`mld::manyToManySearch`, lines 554–983) -/

/-- A backward-search bucket `NodeBucket(node, parent, from_clique_arc,
column_index, weight, duration)`. -/
structure NodeBucket where
  middle_node : NodeID
  parent_node : NodeID
  from_clique_arc : Bool
  column_index : Nat
  weight : EdgeWeight
  duration : EdgeDuration
  deriving Repr, DecidableEq

/-- `insertSourceInHeap` — modelled from the spec: declared in
`routing_base_mld.hpp`, not under `src/`.  Per spec §4.3/§4.4 it seeds the
heap with each valid source half of the phantom at key equal to the negated
weight-plus-offset (and negated duration). -/
def insertSourceInHeap (h : QueryHeap) (p : PhantomNode) : QueryHeap :=
  let h :=
    if p.is_valid_forward_source then
      h.insert p.forward_segment_id.id (-p.forward_weight)
        ⟨p.forward_segment_id.id, false, -p.forward_duration⟩
    else h
  if p.is_valid_reverse_source then
    h.insert p.reverse_segment_id.id (-p.reverse_weight)
      ⟨p.reverse_segment_id.id, false, -p.reverse_duration⟩
  else h

/-- `insertTargetInHeap` — modelled from the spec: declared in
`routing_base_mld.hpp`, not under `src/`.  Per spec §4.3/§4.4 it seeds the
heap with each valid target half of the phantom at the positive
weight-plus-offset. -/
def insertTargetInHeap (h : QueryHeap) (p : PhantomNode) : QueryHeap :=
  let h :=
    if p.is_valid_forward_target then
      h.insert p.forward_segment_id.id p.forward_weight
        ⟨p.forward_segment_id.id, false, p.forward_duration⟩
    else h
  if p.is_valid_reverse_target then
    h.insert p.reverse_segment_id.id p.reverse_weight
      ⟨p.reverse_segment_id.id, false, p.reverse_duration⟩
  else h

/-- The results-table index expression of `forwardRoutingStep` and
`calculateDistances`: row-major `(row, column)` for the forward driver,
row-major transposed `(column, row)` for the reversed driver
(lines 588–590, 697–699). -/
def resultLocation (dir : Bool) (row_idx column_idx number_of_sources
    number_of_targets : Nat) : Nat :=
  if dir = FORWARD_DIRECTION then row_idx * number_of_targets + column_idx
  else row_idx + column_idx * number_of_sources

/-- The tables of the bidirectional driver. -/
structure MTMState where
  heap : QueryHeap
  weights_table : List EdgeWeight
  durations_table : List EdgeDuration
  middle_nodes_table : List NodeID
  distances_table : List EdgeDistance
  deriving Repr, DecidableEq

/-- The bucket-intersection commit inside `forwardRoutingStep` (lines
578–605): at the direction-dependent result location, commit
`(source + bucket)` when non-negative and lexicographically better, setting
weight, duration and middle node together. -/
def commitBucket (dir : Bool) (row_idx number_of_sources number_of_targets : Nat)
    (source_weight : EdgeWeight) (source_duration : EdgeDuration) (node : NodeID)
    (st : MTMState) (current_bucket : NodeBucket) : MTMState :=
  let column_idx := current_bucket.column_index
  let target_weight := current_bucket.weight
  let target_duration := current_bucket.duration
  let location :=
    resultLocation dir row_idx column_idx number_of_sources number_of_targets
  let current_weight := st.weights_table.getD location 0
  let current_duration := st.durations_table.getD location 0
  let new_weight := source_weight + target_weight
  let new_duration := source_duration + target_duration
  if 0 ≤ new_weight ∧
      lexLt (new_weight, new_duration) (current_weight, current_duration) then
    { st with
      weights_table := st.weights_table.set location new_weight
      durations_table := st.durations_table.set location new_duration
      middle_nodes_table := st.middle_nodes_table.set location node }
  else st

/-- `forwardRoutingStep<DIRECTION>` (lines 557–609): pop the minimum, commit
every admissible bucket intersection into the tables, relax with the
single-phantom level rule. -/
def forwardRoutingStep (f : Facade) (dir : Bool) (row_idx number_of_sources
    number_of_targets : Nat) (search_space_with_buckets : List NodeBucket)
    (phantom_node : PhantomNode) (st : MTMState) : MTMState :=
  match st.heap.deleteMin with
  | none => st
  | some (node, heap) =>
    let source_weight := heap.getKey node
    let source_duration := (heap.getData node).duration
    let bucket_list := search_space_with_buckets.filter (fun b => b.middle_node == node)
    let st := { st with heap := heap }
    let st :=
      bucket_list.foldl
        (commitBucket dir row_idx number_of_sources number_of_targets source_weight
          source_duration node)
        st
    { st with heap :=
        (relaxOutgoingEdges f dir node source_weight source_duration st.heap
          (.phantom phantom_node)) }

/-- `backwardRoutingStep<DIRECTION>` (lines 611–633): pop the minimum, store
a bucket for the settled node, relax in the opposite direction under the
`maximal_level = L − 1` cap. -/
def backwardRoutingStep (f : Facade) (dir : Bool) (column_idx : Nat)
    (phantom_node : PhantomNode) (heap : QueryHeap)
    (search_space_with_buckets : List NodeBucket) :
    QueryHeap × List NodeBucket :=
  match heap.deleteMin with
  | none => (heap, search_space_with_buckets)
  | some (node, heap) =>
    let target_weight := heap.getKey node
    let target_duration := (heap.getData node).duration
    let parent := (heap.getData node).parent
    let from_clique_arc := (heap.getData node).from_clique_arc
    let search_space_with_buckets := search_space_with_buckets ++
      [⟨node, parent, from_clique_arc, column_idx, target_weight, target_duration⟩]
    let maximal_level := f.numLevels - 1
    (relaxOutgoingEdges f (!dir) node target_weight target_duration heap
      (.capped phantom_node maximal_level), search_space_with_buckets)

/-- Insertion into a bucket list sorted by `(middle_node, column_index)`. -/
def bucketInsert (b : NodeBucket) : List NodeBucket → List NodeBucket
  | [] => [b]
  | c :: rest =>
    if b.middle_node < c.middle_node ∨
        (b.middle_node = c.middle_node ∧ b.column_index ≤ c.column_index) then
      b :: c :: rest
    else c :: bucketInsert b rest

/-- `std::sort` of the bucket store by `(middle_node, column_index)`; the
comparator is declared in `many_to_many.hpp` (not under `src/`) and is
modelled from the spec (§3: buckets totally ordered by node id, secondarily
by column). -/
def sortBuckets (l : List NodeBucket) : List NodeBucket :=
  l.foldl (fun acc b => bucketInsert b acc) []

/-- The chain walk inside `retrievePackedPathFromSearchSpace` (lines
650–663): repeatedly look up the `(node, column)` bucket and follow
`parent_node`, collecting `(parent, from_clique_arc)` pairs until the parent
equals the current node; a missing bucket ends the walk (the C++ iterator
pair would then be empty and the loop's dereference undefined). -/
def searchSpaceChain (search_space_with_buckets : List NodeBucket) (column_idx : Nat) :
    Nat → NodeID → List (NodeID × Bool)
  | 0, _ => []
  | fuel + 1, current_node_id =>
    match search_space_with_buckets.find?
        (fun b => b.middle_node == current_node_id && b.column_index == column_idx) with
    | none => []
    | some bucket =>
      if bucket.parent_node == current_node_id then []
      else (bucket.parent_node, bucket.from_clique_arc) ::
        searchSpaceChain search_space_with_buckets column_idx fuel bucket.parent_node

/-- `retrievePackedPathFromSearchSpace` (lines 635–675): convert the chain
into packed edges appended to `path`. -/
def retrievePackedPathFromSearchSpace (fuel : Nat) (middle_node_id : NodeID)
    (column_idx : Nat) (search_space_with_buckets : List NodeBucket)
    (path : PackedPath) : PackedPath :=
  let packed_leg := searchSpaceChain search_space_with_buckets column_idx fuel middle_node_id
  match packed_leg with
  | [] => path
  | first :: _ =>
    let path := path ++ [(middle_node_id, first.1, first.2)]
    path ++ (packed_leg.zip packed_leg.tail).map
      (fun pq => (pq.1.1, pq.2.1, pq.2.2))

/-- One column of `calculateDistances<DIRECTION>` (lines 695–876). -/
def calculateDistancesColumn (f : Facade) (dir : Bool) (fuel : Nat)
    (phantom_nodes : List PhantomNode) (target_indices : List Nat) (row_idx : Nat)
    (source_index : Nat) (source_phantom : PhantomNode)
    (number_of_sources number_of_targets : Nat)
    (search_space_with_buckets : List NodeBucket) (heap : QueryHeap)
    (middle_nodes_table : List NodeID) (distances_table : List EdgeDistance)
    (column_idx : Nat) : List EdgeDistance :=
  let location := resultLocation dir row_idx column_idx number_of_sources number_of_targets
  let target_index := target_indices.getD column_idx 0
  let target_phantom := phantom_nodes.getD target_index default
  let middle_node_id := middle_nodes_table.getD location SPECIAL_NODEID
  if source_index == target_index then
    distances_table.set location 0
  else if middle_node_id == SPECIAL_NODEID then
    distances_table.set location INVALID_EDGE_DISTANCE
  else
    let packed_path :=
      (retrievePackedPathFromSingleManyToManyHeap heap fuel middle_node_id).reverse
    let packed_path := retrievePackedPathFromSearchSpace fuel middle_node_id column_idx
      search_space_with_buckets packed_path
    let distances_table :=
      if packed_path.isEmpty then
        if source_phantom.forward_distance < target_phantom.forward_distance then
          distances_table.set location
            (target_phantom.forward_distance - source_phantom.forward_distance)
        else
          distances_table.set location
            (target_phantom.reverse_distance - source_phantom.reverse_distance)
      else distances_table
    if !packed_path.isEmpty then
      let unpacked_nodes := f.unpackNodes packed_path middle_node_id
      let source := unpacked_nodes.headD 0
      let target := unpacked_nodes.getLastD 0
      let unpacked_nodes :=
        if dir = REVERSE_DIRECTION then unpacked_nodes.reverse else unpacked_nodes
      let distSum := (unpacked_nodes.dropLast.map f.edgeDistance).foldl (· + ·) 0
      let distances_table := distances_table.set location distSum
      let distances_table :=
        if source_phantom.forward_segment_id.id == source then
          let offset := source_phantom.forward_distance
          if dir = FORWARD_DIRECTION then
            distances_table.set location (distances_table.getD location 0 - offset)
          else
            distances_table.set location (distances_table.getD location 0 + offset)
        else if source_phantom.reverse_segment_id.id == source then
          let offset := source_phantom.reverse_distance
          if dir = FORWARD_DIRECTION then
            distances_table.set location (distances_table.getD location 0 - offset)
          else
            distances_table.set location (distances_table.getD location 0 + offset)
        else distances_table
      if target_phantom.forward_segment_id.id == target then
        let offset := target_phantom.forward_distance
        if dir = FORWARD_DIRECTION then
          distances_table.set location (distances_table.getD location 0 + offset)
        else
          distances_table.set location (distances_table.getD location 0 - offset)
      else if target_phantom.reverse_segment_id.id == target then
        let offset := target_phantom.reverse_distance
        if dir = FORWARD_DIRECTION then
          distances_table.set location (distances_table.getD location 0 + offset)
        else
          distances_table.set location (distances_table.getD location 0 - offset)
      else distances_table
    else distances_table

/-- `calculateDistances<DIRECTION>` (lines 677–877). -/
def calculateDistances (f : Facade) (dir : Bool) (fuel : Nat)
    (phantom_nodes : List PhantomNode) (target_indices : List Nat) (row_idx : Nat)
    (source_index : Nat) (source_phantom : PhantomNode)
    (number_of_sources number_of_targets : Nat)
    (search_space_with_buckets : List NodeBucket) (heap : QueryHeap)
    (middle_nodes_table : List NodeID) (distances_table : List EdgeDistance) :
    List EdgeDistance :=
  (List.range number_of_targets).foldl
    (fun distances_table column_idx =>
      calculateDistancesColumn f dir fuel phantom_nodes target_indices row_idx
        source_index source_phantom number_of_sources number_of_targets
        search_space_with_buckets heap middle_nodes_table distances_table column_idx)
    distances_table

/-- The backward explore loop of one column (lines 915–919), fuelled. -/
def mtmBackwardLoop (f : Facade) (dir : Bool) (column_idx : Nat)
    (phantom_node : PhantomNode) :
    Nat → QueryHeap → List NodeBucket → QueryHeap × List NodeBucket
  | 0, heap, buckets => (heap, buckets)
  | fuel + 1, heap, buckets =>
    if heap.isEmpty then (heap, buckets)
    else
      let r := backwardRoutingStep f dir column_idx phantom_node heap buckets
      mtmBackwardLoop f dir column_idx phantom_node fuel r.1 r.2

/-- The forward explore loop of one row (lines 943–955), fuelled. -/
def mtmForwardLoop (f : Facade) (dir : Bool) (row_idx number_of_sources
    number_of_targets : Nat) (search_space_with_buckets : List NodeBucket)
    (phantom_node : PhantomNode) : Nat → MTMState → MTMState
  | 0, st => st
  | fuel + 1, st =>
    if st.heap.isEmpty then st
    else
      let st := forwardRoutingStep f dir row_idx number_of_sources number_of_targets
        search_space_with_buckets phantom_node st
      mtmForwardLoop f dir row_idx number_of_sources number_of_targets
        search_space_with_buckets phantom_node fuel st

/-- `std::vector::resize(n, v)` on the distances table (line 965). -/
def resizeTo (l : List EdgeDistance) (n : Nat) (v : EdgeDistance) : List EdgeDistance :=
  if l.length < n then l ++ List.replicate (n - l.length) v else l

/-- `mld::manyToManySearch<DIRECTION>` (lines 879–983), returning the final
tables.  The two Dijkstra loops are fuelled. -/
def mldManyToManySearchState (dir : Bool) (fuel : Nat) (f : Facade)
    (phantom_nodes : List PhantomNode) (source_indices : List Nat)
    (target_indices : List Nat) (calculate_distance : Bool) :
    MTMState × List NodeBucket :=
  let number_of_sources := source_indices.length
  let number_of_targets := target_indices.length
  let number_of_entries := number_of_sources * number_of_targets
  let st : MTMState :=
    { heap := emptyHeap
      weights_table := List.replicate number_of_entries INVALID_EDGE_WEIGHT
      durations_table := List.replicate number_of_entries MAXIMAL_EDGE_DURATION
      middle_nodes_table := List.replicate number_of_entries SPECIAL_NODEID
      distances_table := [] }
  let search_space_with_buckets : List NodeBucket :=
    (List.range number_of_targets).foldl
      (fun buckets column_idx =>
        let index := target_indices.getD column_idx 0
        let target_phantom := phantom_nodes.getD index default
        let query_heap := emptyHeap
        let query_heap :=
          if dir = FORWARD_DIRECTION then insertTargetInHeap query_heap target_phantom
          else insertSourceInHeap query_heap target_phantom
        (mtmBackwardLoop f dir column_idx target_phantom fuel query_heap buckets).2)
      []
  let search_space_with_buckets := sortBuckets search_space_with_buckets
  let st :=
    (List.range number_of_sources).foldl
      (fun st row_idx =>
        let source_index := source_indices.getD row_idx 0
        let source_phantom := phantom_nodes.getD source_index default
        let query_heap := emptyHeap
        let query_heap :=
          if dir = FORWARD_DIRECTION then insertSourceInHeap query_heap source_phantom
          else insertTargetInHeap query_heap source_phantom
        let st := { st with heap := query_heap }
        let st := mtmForwardLoop f dir row_idx number_of_sources number_of_targets
          search_space_with_buckets source_phantom fuel st
        if calculate_distance then
          let distances_table :=
            resizeTo st.distances_table number_of_entries INVALID_EDGE_DISTANCE
          { st with distances_table :=
              (calculateDistances f dir fuel phantom_nodes target_indices row_idx
                source_index source_phantom number_of_sources number_of_targets
                search_space_with_buckets st.heap st.middle_nodes_table distances_table) }
        else st)
      st
  (st, search_space_with_buckets)

/-- The `(durations, distances)` pair `mld::manyToManySearch` returns. -/
def mldManyToManySearch (dir : Bool) (fuel : Nat) (f : Facade)
    (phantom_nodes : List PhantomNode) (source_indices : List Nat)
    (target_indices : List Nat) (calculate_distance : Bool) :
    List EdgeDuration × List EdgeDistance :=
  let st := (mldManyToManySearchState dir fuel f phantom_nodes source_indices
    target_indices calculate_distance).1
  (st.durations_table, st.distances_table)

/-! ## The dispatcher (lines 999–1048) -/

/-- The top-level `manyToManySearch` dispatcher: one-to-many forward when
`|sources| = 1`, one-to-many reverse when `|targets| = 1`, bidirectional
reverse with swapped lists when `|targets| < |sources|`, else bidirectional
forward.  `calculate_duration` is a stub the code ignores. -/
def manyToManySearch (fuel : Nat) (f : Facade) (phantom_nodes : List PhantomNode)
    (source_indices : List Nat) (target_indices : List Nat)
    (calculate_distance : Bool) (calculate_duration : Bool) :
    List EdgeDuration × List EdgeDistance :=
  let _ := calculate_duration
  if source_indices.length = 1 then
    oneToManySearch FORWARD_DIRECTION fuel f phantom_nodes (source_indices.headD 0)
      target_indices calculate_distance
  else if target_indices.length = 1 then
    oneToManySearch REVERSE_DIRECTION fuel f phantom_nodes (target_indices.headD 0)
      source_indices calculate_distance
  else if target_indices.length < source_indices.length then
    mldManyToManySearch REVERSE_DIRECTION fuel f phantom_nodes target_indices
      source_indices calculate_distance
  else
    mldManyToManySearch FORWARD_DIRECTION fuel f phantom_nodes source_indices
      target_indices calculate_distance

/-! ## Derived notions used by the statements -/

/-- Lexicographic minimum of an optional current pair and a candidate. -/
def pairLexMin (cur : Option (Int × Int)) (p : Int × Int) : Option (Int × Int) :=
  match cur with
  | none => some p
  | some q => if lexLt p q then some p else some q

/-- The `(weight, duration)` pairs offered to a fixed node. -/
def offerPairs (offers : List Offer) (n : NodeID) : List (Int × Int) :=
  offers.filterMap (fun o => if o.toNode = n then some (o.weight, o.duration) else none)

/-- The ghost insertion trace is exactly the set of inserted nodes. -/
def heapCoherent (h : QueryHeap) : Prop :=
  ∀ n, h.wasInserted n = true ↔ n ∈ h.insertTrace

/-! ## Concrete fixtures -/

/-- A two-node facade with no edges, one partition level, all nodes in one
cell. -/
def trivialFacade : Facade :=
  { numNodes := 2
    maxBorderNodeID := 1
    excludeNode := fun _ => false
    adjacentEdges := fun _ => []
    edgeData := fun _ => ⟨false, false, 0, 0⟩
    edgeTarget := fun _ => 0
    borderEdges := fun _ _ => []
    numLevels := 1
    highestDifferentLevel := fun _ _ => 0
    cellOf := fun _ _ => 0
    destinationNodes := fun _ _ => []
    sourceNodes := fun _ _ => []
    outWeights := fun _ _ _ => []
    outDurations := fun _ _ _ => []
    inWeights := fun _ _ _ => []
    inDurations := fun _ _ _ => []
    edgeDistance := fun _ => 0
    unpackNodes := fun _ _ => [] }

/-- Like `trivialFacade`, but node 0 has two parallel forward base edges
(edge ids 0 and 1) to node 1. -/
def facadeDupEdges : Facade :=
  { trivialFacade with
    adjacentEdges := fun n => if n == 0 then [0, 1] else []
    edgeData := fun _ => ⟨true, false, 3, 3⟩
    edgeTarget := fun _ => 1 }

/-- A phantom usable only as a forward source, snapped at node `n`. -/
def pSourceAt (n : NodeID) : PhantomNode :=
  ⟨⟨n, true⟩, ⟨n + 100, false⟩, 5, 0, 5, 0, 50, 0, true, false, false, false⟩

/-- A phantom usable only as a forward target, snapped at node `n`. -/
def pTargetAt (n : NodeID) : PhantomNode :=
  ⟨⟨n, true⟩, ⟨n + 100, false⟩, 10, 0, 10, 0, 100, 0, false, false, true, false⟩

/-- A phantom usable as forward source and forward target at node `n`. -/
def pBothAt (n : NodeID) : PhantomNode :=
  ⟨⟨n, true⟩, ⟨n + 100, false⟩, 10, 0, 10, 0, 100, 0, true, false, true, false⟩

/-- A phantom with both halves disabled. -/
def pDisabled : PhantomNode :=
  ⟨⟨0, false⟩, ⟨0, false⟩, 0, 0, 0, 0, 0, 0, false, false, false, false⟩

/-- Phantom list for the self-pair distance check: target `p0` at node 0,
source `p1` at node 1, and no edge from node 1 to node 0. -/
def phantomsDistinct : List PhantomNode := [pTargetAt 0, pSourceAt 1]

/-- Phantom list with the target snapped at an isolated node 9 and the
source at node 0 of `facadeDupEdges`. -/
def phantomsDup : List PhantomNode := [pTargetAt 9, pSourceAt 0]

/-- Phantom list whose second member, phantom index 1, is the only target. -/
def phantomsTail : List PhantomNode := [pSourceAt 0, pTargetAt 5]

/-- An initial 1×1 bidirectional table state whose heap holds node 0 at key
5 with zero duration. -/
def stSentinel : MTMState :=
  { heap := ⟨[(0, ⟨5, ⟨0, false, 0⟩, true⟩)], [0]⟩
    weights_table := [INVALID_EDGE_WEIGHT]
    durations_table := [MAXIMAL_EDGE_DURATION]
    middle_nodes_table := [SPECIAL_NODEID]
    distances_table := [] }

/-- A single bucket whose weight makes the committed sum hit the
`INVALID_EDGE_WEIGHT` sentinel exactly. -/
def bucketsSentinel : List NodeBucket :=
  [⟨0, 0, false, 0, INVALID_EDGE_WEIGHT - 5, 7⟩]

/-- A single bucket whose committed sum stays clear of the sentinel. -/
def bucketsBenign : List NodeBucket := [⟨0, 0, false, 0, 7, 3⟩]

/-! ## Heap lemmas -/

/-- `updateFirst` with a key-preserving update commutes with `find?` on a
key predicate: nothing changes for another key, and for the updated key the
first match is mapped. -/
theorem find?_updateFirst_key {g : NodeID × HeapEntry → NodeID × HeapEntry}
    (hg : ∀ a, (g a).1 = a.1) (t n : NodeID) :
    ∀ l : List (NodeID × HeapEntry),
      (updateFirst (fun e => e.1 == t) g l).find? (fun e => e.1 == n) =
        if n = t then Option.map g (l.find? (fun e => e.1 == n))
        else l.find? (fun e => e.1 == n) := by
  intro l
  induction l with
  | nil => simp [updateFirst]
  | cons a rest ih =>
    by_cases hat : a.1 = t
    · simp only [updateFirst, hat, beq_self_eq_true, if_true]
      by_cases hnt : n = t
      · subst hnt
        rw [List.find?_cons, List.find?_cons]
        have h1 : ((g a).1 == n) = (a.1 == n) := by rw [hg]
        rw [h1, hat, beq_self_eq_true]
        simp
      · rw [List.find?_cons, List.find?_cons]
        have h1 : ((g a).1 == n) = (a.1 == n) := by rw [hg]
        have h2 : (a.1 == n) = false := by
          simp only [beq_eq_false_iff_ne, ne_eq, hat]
          exact fun hc => hnt hc.symm
        rw [h1, h2]
        simp only [if_neg hnt]
    · have hat' : (a.1 == t) = false := by simp [hat]
      simp only [updateFirst, hat', Bool.false_eq_true, if_false]
      by_cases han : a.1 = n
      · rw [List.find?_cons, List.find?_cons]
        have h2 : (a.1 == n) = true := by simp [han]
        rw [h2]
        have hnt : ¬(n = t) := fun hc => hat (by rw [han, hc])
        simp [hnt]
      · rw [List.find?_cons, List.find?_cons]
        have h2 : (a.1 == n) = false := by simp [han]
        rw [h2]
        simpa using ih

theorem entryKD_insert (h : QueryHeap) (t : NodeID) (k : EdgeWeight) (d : HeapData)
    (n : NodeID) :
    (h.insert t k d).entryKD n = if n = t then some (k, d) else h.entryKD n := by
  by_cases hnt : n = t
  · subst hnt
    simp [QueryHeap.entryKD, QueryHeap.insert, List.find?_cons]
  · have : (t == n) = false := by
      simp only [beq_eq_false_iff_ne, ne_eq]
      exact fun hc => hnt hc.symm
    simp [QueryHeap.entryKD, QueryHeap.insert, List.find?_cons, this, hnt]

theorem entryKD_setData_decreaseKey (h : QueryHeap) (t : NodeID) (d : HeapData)
    (k : EdgeWeight) (n : NodeID) :
    ((h.setData t d).decreaseKey t k).entryKD n =
      if n = t then (h.entryKD n).map (fun _ => (k, d)) else h.entryKD n := by
  have hg1 : ∀ a : NodeID × HeapEntry,
      ((fun e : NodeID × HeapEntry => (e.1, { e.2 with data := d })) a).1 = a.1 :=
    fun _ => rfl
  have hg2 : ∀ a : NodeID × HeapEntry,
      ((fun e : NodeID × HeapEntry => (e.1, { e.2 with key := k })) a).1 = a.1 :=
    fun _ => rfl
  simp only [QueryHeap.entryKD, QueryHeap.setData, QueryHeap.decreaseKey]
  rw [find?_updateFirst_key hg2, find?_updateFirst_key hg1]
  by_cases hnt : n = t
  · simp only [hnt, if_true]
    cases h.entries.find? (fun e => e.1 == t) <;> simp
  · simp only [hnt, if_false]

theorem wasInserted_iff_entryKD (h : QueryHeap) (n : NodeID) :
    h.wasInserted n = true ↔ (h.entryKD n).isSome = true := by
  simp [QueryHeap.wasInserted, QueryHeap.entryKD]

theorem entryKD_eq_some_of_wasInserted (h : QueryHeap) (n : NodeID)
    (hw : h.wasInserted n = true) :
    h.entryKD n = some (h.getKey n, h.getData n) := by
  simp only [QueryHeap.wasInserted, Option.isSome_iff_exists] at hw
  obtain ⟨e, he⟩ := hw
  simp [QueryHeap.entryKD, QueryHeap.getKey, QueryHeap.getData, he]

theorem entryKD_eq_none_of_not_wasInserted (h : QueryHeap) (n : NodeID)
    (hw : h.wasInserted n = false) : h.entryKD n = none := by
  unfold QueryHeap.wasInserted at hw
  unfold QueryHeap.entryKD
  cases hfind : h.entries.find? (fun e => e.1 == n) with
  | none => rfl
  | some e => rw [hfind] at hw; simp at hw

/-- Full case analysis of the insert-or-decrease-key rule on the stored
key-and-payload of the touched node. -/
theorem entryKD_updateHeapEntry (h : QueryHeap) (tgt : NodeID) (w : EdgeWeight)
    (dur : EdgeDuration) (parent : NodeID) (flag : Bool) (n : NodeID) :
    (updateHeapEntry h tgt w dur parent flag).entryKD n =
      if n = tgt then
        (match h.entryKD tgt with
         | none => some (w, ⟨parent, flag, dur⟩)
         | some (k, dd) =>
           if lexLt (w, dur) (k, dd.duration) then some (w, ⟨parent, flag, dur⟩)
           else some (k, dd))
      else h.entryKD n := by
  unfold updateHeapEntry
  by_cases hw : h.wasInserted tgt
  · have hkd := entryKD_eq_some_of_wasInserted h tgt hw
    simp only [hw, Bool.not_true, Bool.false_eq_true, if_false]
    by_cases hlex : lexLt (w, dur) (h.getKey tgt, (h.getData tgt).duration) = true
    · simp only [hlex, if_true]
      rw [entryKD_setData_decreaseKey]
      by_cases hnt : n = tgt
      · simp [hnt, hkd, hlex]
      · simp [hnt]
    · simp only [Bool.not_eq_true] at hlex
      simp only [hlex, Bool.false_eq_true, if_false]
      by_cases hnt : n = tgt
      · simp [hnt, hkd, hlex]
      · simp [hnt]
  · have hw' : h.wasInserted tgt = false := by simpa using hw
    have hkd := entryKD_eq_none_of_not_wasInserted h tgt hw'
    simp only [hw', Bool.not_false, if_true]
    rw [entryKD_insert]
    by_cases hnt : n = tgt
    · simp [hnt, hkd]
    · simp [hnt]

/-! ## Relaxation as a fold over its offers -/

theorem relaxShortcuts_eq_offers (node : NodeID) (w : EdgeWeight) (d : EdgeDuration) :
    ∀ (trips : List (NodeID × EdgeWeight × EdgeDuration)) (h : QueryHeap),
      relaxShortcuts node w d trips h =
        (shortcutOffers node w d trips).foldl applyOffer h := by
  intro trips
  induction trips with
  | nil => intro h; rfl
  | cons t rest ih =>
    intro h
    by_cases hc : t.2.1 ≠ INVALID_EDGE_WEIGHT ∧ node ≠ t.1
    · have hL : relaxShortcuts node w d (t :: rest) h =
          relaxShortcuts node w d rest
            (updateHeapEntry h t.1 (w + t.2.1) (d + t.2.2) node true) := by
        simp only [relaxShortcuts, List.foldl_cons]
        congr 1
        simp [hc]
      have hR : shortcutOffers node w d (t :: rest) =
          (⟨t.1, w + t.2.1, d + t.2.2, node, true⟩ : Offer) :: shortcutOffers node w d rest := by
        simp only [shortcutOffers, List.filterMap_cons]
        rw [if_pos hc]
      rw [hL, hR, List.foldl_cons, ih]
      rfl
    · have hL : relaxShortcuts node w d (t :: rest) h = relaxShortcuts node w d rest h := by
        simp only [relaxShortcuts, List.foldl_cons]
        congr 1
        simp [hc]
      have hR : shortcutOffers node w d (t :: rest) = shortcutOffers node w d rest := by
        simp only [shortcutOffers, List.filterMap_cons]
        rw [if_neg hc]
      rw [hL, hR, ih]

theorem relaxBorderEdges_eq_offers (f : Facade) (dir : Bool) (node : NodeID)
    (w : EdgeWeight) (d : EdgeDuration) (level : LevelID) (h : QueryHeap) :
    relaxBorderEdges f dir node w d level h =
      (borderOffers f dir node w d level).foldl applyOffer h := by
  unfold relaxBorderEdges borderOffers
  generalize f.borderEdges level node = edges
  induction edges generalizing h with
  | nil => rfl
  | cons e rest ih =>
    simp only [List.foldl_cons, List.filterMap_cons]
    by_cases hdir : (if dir = FORWARD_DIRECTION then (f.edgeData e).forward
        else (f.edgeData e).backward) = true
    · by_cases hex : f.excludeNode (f.edgeTarget e) = true
      · simpa [hdir, hex] using ih h
      · have hex' : f.excludeNode (f.edgeTarget e) = false := by simpa using hex
        simpa [hdir, hex', applyOffer] using ih _
    · have hdir' : (if dir = FORWARD_DIRECTION then (f.edgeData e).forward
          else (f.edgeData e).backward) = false := by simpa using hdir
      simpa [hdir'] using ih h

theorem relaxOutgoingEdges_eq_offers (f : Facade) (dir : Bool) (node : NodeID)
    (w : EdgeWeight) (d : EdgeDuration) (h : QueryHeap) (args : LevelArgs) :
    relaxOutgoingEdges f dir node w d h args =
      (relaxOffers f dir node w d h args).foldl applyOffer h := by
  unfold relaxOutgoingEdges relaxOffers
  by_cases hl : getNodeQueryLevelArgs f node args = INVALID_LEVEL_ID
  · simp [hl]
  · rw [if_neg hl, if_neg hl]
    dsimp only
    by_cases hc : 1 ≤ getNodeQueryLevelArgs f node args ∧
        !(h.getData node).from_clique_arc
    · rw [if_pos hc, if_pos hc, List.foldl_append]
      by_cases hdir : dir = FORWARD_DIRECTION
      · rw [if_pos hdir, if_pos hdir]
        rw [relaxShortcuts_eq_offers, relaxBorderEdges_eq_offers]
      · rw [if_neg hdir, if_neg hdir]
        rw [relaxShortcuts_eq_offers, relaxBorderEdges_eq_offers]
    · rw [if_neg hc, if_neg hc, List.nil_append]
      exact relaxBorderEdges_eq_offers ..

/-- Every offer of the shortcut pass carries `parent = node` and
`from_clique_arc = true`. -/
theorem shortcutOffers_shape (node : NodeID) (w : EdgeWeight) (d : EdgeDuration)
    (trips : List (NodeID × EdgeWeight × EdgeDuration)) :
    ∀ o ∈ shortcutOffers node w d trips, o.parent = node ∧ o.flag = true := by
  intro o ho
  simp only [shortcutOffers, List.mem_filterMap] at ho
  obtain ⟨t, _, ht⟩ := ho
  by_cases hc : t.2.1 ≠ INVALID_EDGE_WEIGHT ∧ node ≠ t.1
  · rw [if_pos hc] at ht
    cases ht; exact ⟨rfl, rfl⟩
  · rw [if_neg hc] at ht
    cases ht

/-- Every offer of the border pass carries `parent = node` and
`from_clique_arc = false`. -/
theorem borderOffers_shape (f : Facade) (dir : Bool) (node : NodeID) (w : EdgeWeight)
    (d : EdgeDuration) (level : LevelID) :
    ∀ o ∈ borderOffers f dir node w d level, o.parent = node ∧ o.flag = false := by
  intro o ho
  simp only [borderOffers, List.mem_filterMap] at ho
  obtain ⟨e, _, he⟩ := ho
  by_cases hdir : (if dir = FORWARD_DIRECTION then (f.edgeData e).forward
      else (f.edgeData e).backward) = true
  · rw [if_pos hdir] at he
    by_cases hex : f.excludeNode (f.edgeTarget e) = true
    · rw [if_pos hex] at he
      cases he
    · rw [if_neg hex] at he
      cases he; exact ⟨rfl, rfl⟩
  · rw [if_neg hdir] at he
    cases he

/-- Either an `applyOffer` leaves a node's stored record alone, or the
record becomes exactly the offered one. -/
theorem entryKD_applyOffer (h : QueryHeap) (o : Offer) (n : NodeID) :
    (applyOffer h o).entryKD n = h.entryKD n ∨
      (o.toNode = n ∧
        (applyOffer h o).entryKD n = some (o.weight, ⟨o.parent, o.flag, o.duration⟩)) := by
  unfold applyOffer
  rw [entryKD_updateHeapEntry]
  by_cases hnt : n = o.toNode
  · rw [if_pos hnt]
    cases hkd : h.entryKD o.toNode with
    | none => right; exact ⟨hnt.symm, rfl⟩
    | some kd =>
      obtain ⟨k, dd⟩ := kd
      by_cases hlex : lexLt (o.weight, o.duration) (k, dd.duration) = true
      · right
        refine ⟨hnt.symm, ?_⟩
        simp [hlex]
      · left
        simp only [hlex, Bool.false_eq_true, if_false]
        rw [hnt]
        exact hkd.symm
  · left; rw [if_neg hnt]

/-- A fold of offers changes a node's record only to one of the offered
records for that node. -/
theorem entryKD_foldl_applyOffer_changed :
    ∀ (offers : List Offer) (h : QueryHeap) (n : NodeID),
      (offers.foldl applyOffer h).entryKD n = h.entryKD n ∨
        ∃ o ∈ offers, o.toNode = n ∧
          (offers.foldl applyOffer h).entryKD n =
            some (o.weight, ⟨o.parent, o.flag, o.duration⟩) := by
  intro offers
  induction offers with
  | nil => intro h n; left; rfl
  | cons o rest ih =>
    intro h n
    rcases ih (applyOffer h o) n with hsame | ⟨o', ho', hto', hval⟩
    · rcases entryKD_applyOffer h o n with h1 | ⟨hto, hval⟩
      · left
        simpa [hsame] using h1
      · right
        exact ⟨o, List.mem_cons_self .., hto, by simpa [hsame] using hval⟩
    · right
      exact ⟨o', List.mem_cons_of_mem _ ho', hto', by simpa using hval⟩

theorem entryPair_eq_map_entryKD (h : QueryHeap) (n : NodeID) :
    h.entryPair n = (h.entryKD n).map (fun kd => (kd.1, kd.2.duration)) := by
  unfold QueryHeap.entryPair QueryHeap.entryKD
  cases h.entries.find? (fun e => e.1 == n) <;> simp

theorem entryPair_applyOffer (h : QueryHeap) (o : Offer) (n : NodeID) :
    (applyOffer h o).entryPair n =
      if o.toNode = n then pairLexMin (h.entryPair n) (o.weight, o.duration)
      else h.entryPair n := by
  rw [entryPair_eq_map_entryKD, entryPair_eq_map_entryKD]
  unfold applyOffer
  rw [entryKD_updateHeapEntry]
  by_cases hnt : n = o.toNode
  · rw [if_pos hnt, if_pos hnt.symm, hnt]
    cases hkd : h.entryKD o.toNode with
    | none => rfl
    | some kd =>
      obtain ⟨k, dd⟩ := kd
      by_cases hlex : lexLt (o.weight, o.duration) (k, dd.duration) = true
      · simp [pairLexMin, hlex]
      · simp [pairLexMin, hlex]
  · rw [if_neg hnt, if_neg (fun hc => hnt hc.symm)]

theorem offerPairs_cons (o : Offer) (rest : List Offer) (n : NodeID) :
    offerPairs (o :: rest) n =
      if o.toNode = n then (o.weight, o.duration) :: offerPairs rest n
      else offerPairs rest n := by
  unfold offerPairs
  rw [List.filterMap_cons]
  by_cases hto : o.toNode = n
  · rw [if_pos hto, if_pos hto]
  · rw [if_neg hto, if_neg hto]

/-- The stored `(key, duration)` pair after a fold of offers is the running
lexicographic minimum of the previous pair and the pairs offered to the
node. -/
theorem entryPair_foldl_applyOffer :
    ∀ (offers : List Offer) (h : QueryHeap) (n : NodeID),
      (offers.foldl applyOffer h).entryPair n =
        (offerPairs offers n).foldl pairLexMin (h.entryPair n) := by
  intro offers
  induction offers with
  | nil => intro h n; rfl
  | cons o rest ih =>
    intro h n
    rw [List.foldl_cons, ih, offerPairs_cons]
    by_cases hto : o.toNode = n
    · rw [if_pos hto, List.foldl_cons, entryPair_applyOffer, if_pos hto]
    · rw [if_neg hto, entryPair_applyOffer, if_neg hto]

/-! ## Insertion-trace lemmas -/

theorem wasInserted_insert (h : QueryHeap) (t : NodeID) (k : EdgeWeight) (d : HeapData)
    (n : NodeID) :
    (h.insert t k d).wasInserted n = ((t == n) || h.wasInserted n) := by
  unfold QueryHeap.wasInserted QueryHeap.insert
  rw [List.find?_cons]
  by_cases htn : (t == n) = true
  · simp [htn]
  · have htn' : (t == n) = false := by simpa using htn
    simp [htn']

theorem wasInserted_setData (h : QueryHeap) (t : NodeID) (d : HeapData) (n : NodeID) :
    (h.setData t d).wasInserted n = h.wasInserted n := by
  have hg : ∀ a : NodeID × HeapEntry,
      ((fun e : NodeID × HeapEntry => (e.1, { e.2 with data := d })) a).1 = a.1 :=
    fun _ => rfl
  simp only [QueryHeap.wasInserted, QueryHeap.setData]
  rw [find?_updateFirst_key hg]
  by_cases hnt : n = t
  · rw [if_pos hnt]
    cases h.entries.find? (fun e => e.1 == n) <;> simp
  · rw [if_neg hnt]

theorem wasInserted_decreaseKey (h : QueryHeap) (t : NodeID) (k : EdgeWeight)
    (n : NodeID) :
    (h.decreaseKey t k).wasInserted n = h.wasInserted n := by
  have hg : ∀ a : NodeID × HeapEntry,
      ((fun e : NodeID × HeapEntry => (e.1, { e.2 with key := k })) a).1 = a.1 :=
    fun _ => rfl
  simp only [QueryHeap.wasInserted, QueryHeap.decreaseKey]
  rw [find?_updateFirst_key hg]
  by_cases hnt : n = t
  · rw [if_pos hnt]
    cases h.entries.find? (fun e => e.1 == n) <;> simp
  · rw [if_neg hnt]

/-- `updateHeapEntry` preserves trace-coherence and trace-duplicate-freedom:
it calls `Insert` only on nodes that were never inserted. -/
theorem coherent_nodup_applyOffer (h : QueryHeap) (o : Offer)
    (hc : heapCoherent h) (hd : h.insertTrace.Nodup) :
    heapCoherent (applyOffer h o) ∧ (applyOffer h o).insertTrace.Nodup := by
  unfold applyOffer updateHeapEntry
  by_cases hw : h.wasInserted o.toNode = true
  · have hw' : (!h.wasInserted o.toNode) = false := by simp [hw]
    rw [hw']
    simp only [Bool.false_eq_true, if_false]
    by_cases hlex : lexLt (o.weight, o.duration)
        (h.getKey o.toNode, (h.getData o.toNode).duration) = true
    · rw [if_pos hlex]
      constructor
      · intro n
        rw [wasInserted_decreaseKey, wasInserted_setData]
        exact hc n
      · exact hd
    · rw [if_neg (by simpa using hlex)]
      exact ⟨hc, hd⟩
  · have hwf : h.wasInserted o.toNode = false := by simpa using hw
    have hw' : (!h.wasInserted o.toNode) = true := by simp [hwf]
    rw [hw']
    simp only [if_true]
    constructor
    · intro n
      rw [wasInserted_insert]
      show _ ↔ n ∈ o.toNode :: h.insertTrace
      rw [List.mem_cons]
      constructor
      · intro he
        rcases Bool.or_eq_true_iff.mp he with h1 | h1
        · left; exact (beq_iff_eq.mp h1).symm
        · right; exact (hc n).mp h1
      · intro he
        rcases he with h1 | h1
        · exact Bool.or_eq_true_iff.mpr (Or.inl (beq_iff_eq.mpr h1.symm))
        · exact Bool.or_eq_true_iff.mpr (Or.inr ((hc n).mpr h1))
    · show (o.toNode :: h.insertTrace).Nodup
      refine List.nodup_cons.mpr ⟨?_, hd⟩
      intro hmem
      have := (hc o.toNode).mpr hmem
      rw [this] at hwf
      cases hwf

theorem coherent_nodup_foldl :
    ∀ (offers : List Offer) (h : QueryHeap), heapCoherent h → h.insertTrace.Nodup →
      heapCoherent (offers.foldl applyOffer h) ∧
        (offers.foldl applyOffer h).insertTrace.Nodup := by
  intro offers
  induction offers with
  | nil => intro h hc hd; exact ⟨hc, hd⟩
  | cons o rest ih =>
    intro h hc hd
    obtain ⟨hc', hd'⟩ := coherent_nodup_applyOffer h o hc hd
    exact ih (applyOffer h o) hc' hd'

/-- On an already-inserted node, the insert-or-decrease rule yields the new
record exactly under the strict lexicographic test. -/
theorem entryKD_updateHeapEntry_inserted (h : QueryHeap) (tgt : NodeID)
    (w : EdgeWeight) (dur : EdgeDuration) (parent : NodeID) (flag : Bool)
    (hw : h.wasInserted tgt = true) :
    (updateHeapEntry h tgt w dur parent flag).entryKD tgt =
      if lexLt (w, dur) (h.getKey tgt, (h.getData tgt).duration) then
        some (w, ⟨parent, flag, dur⟩)
      else h.entryKD tgt := by
  rw [entryKD_updateHeapEntry, if_pos rfl, entryKD_eq_some_of_wasInserted h tgt hw]

theorem lexLt_ne (p q : Int × Int) (h : lexLt p q = true) : p ≠ q := by
  intro he
  subst he
  unfold lexLt at h
  simp at h

/-- A generic fold-invariant helper. -/
theorem foldl_preserves {α β : Type} (P : β → Prop) (f : β → α → β)
    (hf : ∀ b a, P b → P (f b a)) :
    ∀ (l : List α) (b : β), P b → P (l.foldl f b) := by
  intro l
  induction l with
  | nil => intro b hb; exact hb
  | cons a rest ih => intro b hb; exact ih (f b a) (hf b a hb)

/-- A fold-invariant helper that provides list membership to the step. -/
theorem foldl_preserves_mem {α β : Type} (P : β → Prop) (f : β → α → β) :
    ∀ (l : List α), (∀ b a, a ∈ l → P b → P (f b a)) →
      ∀ b, P b → P (l.foldl f b) := by
  intro l
  induction l with
  | nil => intro _ b hb; exact hb
  | cons a rest ih =>
    intro hf b hb
    exact ih (fun b' a' ha' hb' => hf b' a' (List.mem_cons_of_mem _ ha') hb')
      (f b a) (hf b a (List.mem_cons_self ..) hb)

/-! ## Claim theorems -/

/-- C1: the `manyToManySearch` dispatcher runs the one-to-many driver
forward when `|sources| = 1`, the one-to-many driver in reverse with swapped
arguments when `|targets| = 1`, the bidirectional driver in reverse with
swapped lists when `|targets| < |sources|` — its transposed result location
for (row = target, column = source) being exactly the caller-orientation
row-major index of (source, target) — and the bidirectional driver forward
otherwise. -/
theorem c1_dispatch :
    (∀ (fuel : Nat) (f : Facade) (pn : List PhantomNode) (S T : List Nat)
        (cd cdur : Bool), S.length = 1 →
        manyToManySearch fuel f pn S T cd cdur =
          oneToManySearch FORWARD_DIRECTION fuel f pn (S.headD 0) T cd)
    ∧ (∀ (fuel : Nat) (f : Facade) (pn : List PhantomNode) (S T : List Nat)
        (cd cdur : Bool), S.length ≠ 1 → T.length = 1 →
        manyToManySearch fuel f pn S T cd cdur =
          oneToManySearch REVERSE_DIRECTION fuel f pn (T.headD 0) S cd)
    ∧ (∀ (fuel : Nat) (f : Facade) (pn : List PhantomNode) (S T : List Nat)
        (cd cdur : Bool), S.length ≠ 1 → T.length ≠ 1 → T.length < S.length →
        manyToManySearch fuel f pn S T cd cdur =
          mldManyToManySearch REVERSE_DIRECTION fuel f pn T S cd)
    ∧ (∀ (fuel : Nat) (f : Facade) (pn : List PhantomNode) (S T : List Nat)
        (cd cdur : Bool), S.length ≠ 1 → T.length ≠ 1 → ¬(T.length < S.length) →
        manyToManySearch fuel f pn S T cd cdur =
          mldManyToManySearch FORWARD_DIRECTION fuel f pn S T cd)
    ∧ (∀ nS nT s t : Nat,
        resultLocation REVERSE_DIRECTION t s nT nS =
          resultLocation FORWARD_DIRECTION s t nS nT) := by
  refine ⟨?_, ?_, ?_, ?_, ?_⟩
  · intro fuel f pn S T cd cdur hS
    unfold manyToManySearch
    rw [if_pos hS]
  · intro fuel f pn S T cd cdur hS hT
    unfold manyToManySearch
    rw [if_neg hS, if_pos hT]
  · intro fuel f pn S T cd cdur hS hT hlt
    unfold manyToManySearch
    rw [if_neg hS, if_neg hT, if_pos hlt]
  · intro fuel f pn S T cd cdur hS hT hlt
    unfold manyToManySearch
    rw [if_neg hS, if_neg hT, if_neg hlt]
  · intro nS nT s t
    unfold resultLocation
    rw [if_neg (by decide : ¬(REVERSE_DIRECTION = FORWARD_DIRECTION)),
      if_pos rfl]
    omega

theorem c1_dispatch_witness :
    manyToManySearch 3 trivialFacade phantomsDistinct [1] [0] false false =
      oneToManySearch FORWARD_DIRECTION 3 trivialFacade phantomsDistinct
        (([1] : List Nat).headD 0) [0] false :=
  c1_dispatch.1 3 trivialFacade phantomsDistinct [1] [0] false false (by decide)

/-- C6: shortcut relaxation happens only when the resolved level is at least
1 and the settled node was not itself reached through a shortcut; every
entry changed by the shortcut pass is marked `from_clique_arc = true` with
the settled node as parent (so a second consecutive shortcut hop is shut
off at that node's own settling), and every entry changed by the border pass
is marked `from_clique_arc = false`. -/
theorem c6_shortcut_guard_and_marks :
    (∀ (f : Facade) (dir : Bool) (node : NodeID) (w : EdgeWeight) (d : EdgeDuration)
        (h : QueryHeap) (args : LevelArgs),
        getNodeQueryLevelArgs f node args ≠ INVALID_LEVEL_ID →
        (getNodeQueryLevelArgs f node args = 0 ∨
          (h.getData node).from_clique_arc = true) →
        relaxOutgoingEdges f dir node w d h args =
          relaxBorderEdges f dir node w d (getNodeQueryLevelArgs f node args) h)
    ∧ (∀ (node : NodeID) (w : EdgeWeight) (d : EdgeDuration)
        (trips : List (NodeID × EdgeWeight × EdgeDuration)) (h : QueryHeap) (n : NodeID),
        (relaxShortcuts node w d trips h).entryKD n ≠ h.entryKD n →
        ∃ k dur, (relaxShortcuts node w d trips h).entryKD n =
          some (k, ⟨node, true, dur⟩))
    ∧ (∀ (f : Facade) (dir : Bool) (node : NodeID) (w : EdgeWeight) (d : EdgeDuration)
        (level : LevelID) (h : QueryHeap) (n : NodeID),
        (relaxBorderEdges f dir node w d level h).entryKD n ≠ h.entryKD n →
        ∃ k dur, (relaxBorderEdges f dir node w d level h).entryKD n =
          some (k, ⟨node, false, dur⟩)) := by
  refine ⟨?_, ?_, ?_⟩
  · intro f dir node w d h args hl hcond
    unfold relaxOutgoingEdges
    rw [if_neg hl]
    dsimp only
    have hc : ¬(1 ≤ getNodeQueryLevelArgs f node args ∧
        !(h.getData node).from_clique_arc) := by
      rcases hcond with h0 | hflag
      · intro hand
        rw [h0] at hand
        exact absurd hand.1 (by decide)
      · intro hand
        have h2 := hand.2
        rw [hflag] at h2
        exact absurd h2 (by decide)
    rw [if_neg hc]
  · intro node w d trips h n hchanged
    rw [relaxShortcuts_eq_offers] at hchanged ⊢
    rcases entryKD_foldl_applyOffer_changed (shortcutOffers node w d trips) h n with
      hsame | ⟨o, ho, _, hval⟩
    · exact absurd hsame hchanged
    · obtain ⟨hp, hf⟩ := shortcutOffers_shape node w d trips o ho
      exact ⟨o.weight, o.duration, by rw [hval, hp, hf]⟩
  · intro f dir node w d level h n hchanged
    rw [relaxBorderEdges_eq_offers] at hchanged ⊢
    rcases entryKD_foldl_applyOffer_changed (borderOffers f dir node w d level) h n with
      hsame | ⟨o, ho, _, hval⟩
    · exact absurd hsame hchanged
    · obtain ⟨hp, hf⟩ := borderOffers_shape f dir node w d level o ho
      exact ⟨o.weight, o.duration, by rw [hval, hp, hf]⟩

theorem c6_witness :
    relaxOutgoingEdges trivialFacade FORWARD_DIRECTION 0 0 0 emptyHeap
        (.phantom (pSourceAt 0)) =
      relaxBorderEdges trivialFacade FORWARD_DIRECTION 0 0 0
        (getNodeQueryLevelArgs trivialFacade 0 (.phantom (pSourceAt 0))) emptyHeap :=
  c6_shortcut_guard_and_marks.1 trivialFacade FORWARD_DIRECTION 0 0 0 emptyHeap
    (.phantom (pSourceAt 0)) (by decide) (Or.inl (by decide))

/-- C7: the backward step resolves levels under the cap
`maximal_level = numLevels − 1`; a raw level at or above the cap resolves to
`INVALID_LEVEL_ID`, a node resolved to `INVALID_LEVEL_ID` is relaxed into
nothing, and hence a backward step on such a node leaves the heap exactly as
the pop left it. -/
theorem c7_backward_level_cap :
    (∀ (f : Facade) (node : NodeID) (p : PhantomNode) (maximal_level : LevelID),
        maximal_level ≤ getNodeQueryLevelPhantom f node p →
        getNodeQueryLevelCapped f node p maximal_level = INVALID_LEVEL_ID)
    ∧ (∀ (f : Facade) (dir : Bool) (node : NodeID) (w : EdgeWeight) (d : EdgeDuration)
        (h : QueryHeap) (args : LevelArgs),
        getNodeQueryLevelArgs f node args = INVALID_LEVEL_ID →
        relaxOutgoingEdges f dir node w d h args = h)
    ∧ (∀ (f : Facade) (dir : Bool) (column_idx : Nat) (p : PhantomNode)
        (heap heap' : QueryHeap) (buckets : List NodeBucket) (node : NodeID),
        heap.deleteMin = some (node, heap') →
        f.numLevels - 1 ≤ getNodeQueryLevelPhantom f node p →
        (backwardRoutingStep f dir column_idx p heap buckets).1 = heap') := by
  refine ⟨?_, ?_, ?_⟩
  · intro f node p m hle
    unfold getNodeQueryLevelCapped
    rw [if_pos hle]
  · intro f dir node w d h args hl
    unfold relaxOutgoingEdges
    rw [if_pos hl]
  · intro f dir col p heap heap' buckets node hdm hle
    unfold backwardRoutingStep
    rw [hdm]
    dsimp only
    have hinv : getNodeQueryLevelArgs f node
        (.capped p (f.numLevels - 1)) = INVALID_LEVEL_ID := by
      show getNodeQueryLevelCapped f node p (f.numLevels - 1) = INVALID_LEVEL_ID
      unfold getNodeQueryLevelCapped
      rw [if_pos hle]
    unfold relaxOutgoingEdges
    rw [if_pos hinv]

theorem c7_backward_level_cap_witness :
    getNodeQueryLevelCapped trivialFacade 0 pDisabled 3 = INVALID_LEVEL_ID :=
  c7_backward_level_cap.1 trivialFacade 0 pDisabled 3 (by decide)

/-- C8: after a relaxation call, a node's stored `(key, duration)` pair is
the lexicographic running minimum of its previous pair and every candidate
pair the call offered to it; an unseen node is inserted with the offered
record; a seen node's record is replaced exactly when the new pair is
lexicographically below the stored one, and then key, parent, from-shortcut
flag and duration are all replaced together by the offered record. -/
theorem c8_lexicographic_minimality :
    (∀ (f : Facade) (dir : Bool) (node : NodeID) (w : EdgeWeight) (d : EdgeDuration)
        (h : QueryHeap) (args : LevelArgs) (n : NodeID),
        (relaxOutgoingEdges f dir node w d h args).entryPair n =
          (offerPairs (relaxOffers f dir node w d h args) n).foldl pairLexMin
            (h.entryPair n))
    ∧ (∀ (h : QueryHeap) (tgt : NodeID) (w : EdgeWeight) (dur : EdgeDuration)
        (parent : NodeID) (flag : Bool),
        h.wasInserted tgt = false →
        (updateHeapEntry h tgt w dur parent flag).entryKD tgt =
          some (w, ⟨parent, flag, dur⟩))
    ∧ (∀ (h : QueryHeap) (tgt : NodeID) (w : EdgeWeight) (dur : EdgeDuration)
        (parent : NodeID) (flag : Bool),
        h.wasInserted tgt = true →
        ((updateHeapEntry h tgt w dur parent flag).entryKD tgt =
            (if lexLt (w, dur) (h.getKey tgt, (h.getData tgt).duration) then
              some (w, ⟨parent, flag, dur⟩)
            else h.entryKD tgt)
          ∧ ((updateHeapEntry h tgt w dur parent flag).entryPair tgt ≠
                h.entryPair tgt ↔
              lexLt (w, dur) (h.getKey tgt, (h.getData tgt).duration) = true))) := by
  refine ⟨?_, ?_, ?_⟩
  · intro f dir node w d h args n
    rw [relaxOutgoingEdges_eq_offers]
    exact entryPair_foldl_applyOffer ..
  · intro h tgt w dur parent flag hw
    rw [entryKD_updateHeapEntry, if_pos rfl, entryKD_eq_none_of_not_wasInserted h tgt hw]
  · intro h tgt w dur parent flag hw
    have hkd := entryKD_eq_some_of_wasInserted h tgt hw
    constructor
    · exact entryKD_updateHeapEntry_inserted h tgt w dur parent flag hw
    · rw [entryPair_eq_map_entryKD, entryPair_eq_map_entryKD,
        entryKD_updateHeapEntry_inserted h tgt w dur parent flag hw, hkd]
      by_cases hlex : lexLt (w, dur) (h.getKey tgt, (h.getData tgt).duration) = true
      · rw [if_pos hlex]
        constructor
        · intro _; exact hlex
        · intro _
          intro heq
          simp only [Option.map_some', Option.some.injEq] at heq
          exact lexLt_ne _ _ hlex heq
      · rw [if_neg hlex]
        constructor
        · intro hne; exact absurd rfl hne
        · intro hc; exact absurd hc hlex

theorem c8_lexicographic_minimality_witness :
    (updateHeapEntry emptyHeap 0 5 7 3 true).entryKD 0 =
      some (5, ⟨3, true, 7⟩) :=
  c8_lexicographic_minimality.2.1 emptyHeap 0 5 7 3 true (by decide)

/-- C5 (as stated) is false: in the forward direction the bootstrap's
adjacency loop omits the `WasInserted` check, so seeding from a node with
two parallel forward edges to the same neighbor calls `Insert` twice on
that neighbor within one search phase. -/
theorem c5_counterexample_duplicate_insert :
    ¬ (oneToManySearchState FORWARD_DIRECTION 10 facadeDupEdges phantomsDup 1 [0]
        false).heap.insertTrace.Nodup := by decide

/-- C5 (amended): `relaxOutgoingEdges` inserts a node at most once — every
node it touches is either freshly inserted (and recorded once in the ghost
trace) or improved through decrease-key — so a duplicate-free trace that
matches the inserted set stays duplicate-free and matching. -/
theorem c5_amended_relax_never_reinserts (f : Facade) (dir : Bool) (node : NodeID)
    (w : EdgeWeight) (d : EdgeDuration) (h : QueryHeap) (args : LevelArgs)
    (hc : heapCoherent h) (hd : h.insertTrace.Nodup) :
    heapCoherent (relaxOutgoingEdges f dir node w d h args) ∧
      (relaxOutgoingEdges f dir node w d h args).insertTrace.Nodup := by
  rw [relaxOutgoingEdges_eq_offers]
  exact coherent_nodup_foldl _ h hc hd

theorem c5_amended_relax_never_reinserts_witness :
    heapCoherent (relaxOutgoingEdges trivialFacade FORWARD_DIRECTION 0 0 0 emptyHeap
        (.phantom (pSourceAt 0))) ∧
      (relaxOutgoingEdges trivialFacade FORWARD_DIRECTION 0 0 0 emptyHeap
        (.phantom (pSourceAt 0))).insertTrace.Nodup :=
  c5_amended_relax_never_reinserts trivialFacade FORWARD_DIRECTION 0 0 0 emptyHeap
    (.phantom (pSourceAt 0))
    (fun n => by simp [QueryHeap.wasInserted, emptyHeap])
    (by simp [emptyHeap])

theorem getD_set_eq {α : Type} (l : List α) (i : Nat) (a d : α) (h : i < l.length) :
    (l.set i a).getD i d = a := by
  simp [List.getD, List.getElem?_set_self', List.getElem?_eq_getElem h]

theorem getD_set_ne {α : Type} (l : List α) (i j : Nat) (a d : α) (h : j ≠ i) :
    (l.set i a).getD j d = l.getD j d := by
  simp [List.getD, List.getElem?_set_ne (fun hc => h hc.symm)]

theorem getD_set_oob {α : Type} (l : List α) (i j : Nat) (a d : α)
    (h : l.length ≤ i) : (l.set i a).getD j d = l.getD j d := by
  rw [List.set_eq_of_length_le h]

/-- Folding bucket commits keeps the tables either untouched cellwise or
with a non-negative committed weight, and keeps the table lengths. -/
theorem commitBucket_guard_inv (dir : Bool) (row nS nT : Nat) (sw : EdgeWeight)
    (sd : EdgeDuration) (node : NodeID) (W0 : List EdgeWeight)
    (D0 : List EdgeDuration) (M0 : List NodeID) :
    ∀ (st : MTMState) (b : NodeBucket),
      (st.weights_table.length = st.durations_table.length ∧
        st.weights_table.length = st.middle_nodes_table.length ∧
        ∀ loc, (st.weights_table.getD loc 0 = W0.getD loc 0 ∧
            st.durations_table.getD loc 0 = D0.getD loc 0 ∧
            st.middle_nodes_table.getD loc 0 = M0.getD loc 0) ∨
          0 ≤ st.weights_table.getD loc 0) →
      ((commitBucket dir row nS nT sw sd node st b).weights_table.length =
          (commitBucket dir row nS nT sw sd node st b).durations_table.length ∧
        (commitBucket dir row nS nT sw sd node st b).weights_table.length =
          (commitBucket dir row nS nT sw sd node st b).middle_nodes_table.length ∧
        ∀ loc, ((commitBucket dir row nS nT sw sd node st b).weights_table.getD loc 0 =
              W0.getD loc 0 ∧
            (commitBucket dir row nS nT sw sd node st b).durations_table.getD loc 0 =
              D0.getD loc 0 ∧
            (commitBucket dir row nS nT sw sd node st b).middle_nodes_table.getD loc 0 =
              M0.getD loc 0) ∨
          0 ≤ (commitBucket dir row nS nT sw sd node st b).weights_table.getD loc 0) := by
  intro st b hP
  obtain ⟨hl1, hl2, hloc⟩ := hP
  unfold commitBucket
  dsimp only
  by_cases hc : 0 ≤ sw + b.weight ∧ lexLt (sw + b.weight, sd + b.duration)
      (st.weights_table.getD (resultLocation dir row b.column_index nS nT) 0,
        st.durations_table.getD (resultLocation dir row b.column_index nS nT) 0) = true
  · rw [if_pos hc]
    refine ⟨by simp [hl1], by simp [hl2], ?_⟩
    intro loc
    by_cases hil : loc = resultLocation dir row b.column_index nS nT
    · by_cases hlt : resultLocation dir row b.column_index nS nT <
          st.weights_table.length
      · right
        rw [hil, getD_set_eq _ _ _ _ hlt]
        exact hc.1
      · have hle := Nat.le_of_not_lt hlt
        rw [List.set_eq_of_length_le hle,
          List.set_eq_of_length_le (by rw [← hl1]; exact hle),
          List.set_eq_of_length_le (by rw [← hl2]; exact hle)]
        exact hloc loc
    · rw [getD_set_ne _ _ _ _ _ hil, getD_set_ne _ _ _ _ _ hil,
        getD_set_ne _ _ _ _ _ hil]
      exact hloc loc
  · rw [if_neg hc]
    exact ⟨hl1, hl2, hloc⟩

/-- C2: a candidate is committed into the result tables only when its
combined weight is non-negative — in the one-to-many `update_values` walk
and in the bidirectional bucket intersection alike, any cell whose weight,
duration or meeting-node entry was touched ends with a non-negative stored
weight. -/
theorem c2_commit_guard :
    (∀ (node : NodeID) (w : EdgeWeight) (d : EdgeDuration)
        (tindex : List TargetIndexEntry) (ws : List EdgeWeight)
        (ds : List EdgeDuration) (ts : List NodeID),
        ws.length = ds.length → ws.length = ts.length →
        ∀ i,
          ((updateValuesAux node w d tindex ws ds ts).2.1.getD i 0 ≠ ws.getD i 0 ∨
            (updateValuesAux node w d tindex ws ds ts).2.2.1.getD i 0 ≠ ds.getD i 0 ∨
            (updateValuesAux node w d tindex ws ds ts).2.2.2.getD i 0 ≠ ts.getD i 0) →
          0 ≤ (updateValuesAux node w d tindex ws ds ts).2.1.getD i 0)
    ∧ (∀ (f : Facade) (dir : Bool) (row nS nT : Nat) (buckets : List NodeBucket)
        (p : PhantomNode) (st : MTMState),
        st.weights_table.length = st.durations_table.length →
        st.weights_table.length = st.middle_nodes_table.length →
        ∀ loc,
          ((forwardRoutingStep f dir row nS nT buckets p st).weights_table.getD loc 0 ≠
              st.weights_table.getD loc 0 ∨
            (forwardRoutingStep f dir row nS nT buckets p st).durations_table.getD loc 0 ≠
              st.durations_table.getD loc 0 ∨
            (forwardRoutingStep f dir row nS nT buckets p st).middle_nodes_table.getD
                loc 0 ≠ st.middle_nodes_table.getD loc 0) →
          0 ≤ (forwardRoutingStep f dir row nS nT buckets p st).weights_table.getD
            loc 0) := by
  constructor
  · intro node w d tindex
    induction tindex with
    | nil =>
      intro ws ds ts hlen1 hlen2 i hch
      rcases hch with h | h | h <;> exact absurd rfl h
    | cons e rest ih =>
      intro ws ds ts hlen1 hlen2 i hch
      by_cases he : (e.1 == node) = true
      · by_cases hpw : (0 : Int) ≤ w + e.2.2.1
        · by_cases hlex : lexLt (w + e.2.2.1, d + e.2.2.2)
              (ws.getD e.2.1 0, ds.getD e.2.1 0) = true
          · have hred : updateValuesAux node w d (e :: rest) ws ds ts =
                updateValuesAux node w d rest (ws.set e.2.1 (w + e.2.2.1))
                  (ds.set e.2.1 (d + e.2.2.2)) (ts.set e.2.1 node) := by
              simp only [updateValuesAux]
              rw [if_pos he]
              try dsimp only
              rw [if_pos hpw]
              try dsimp only
              rw [if_pos hlex]
            rw [hred] at hch ⊢
            by_cases hch2 :
                ((updateValuesAux node w d rest (ws.set e.2.1 (w + e.2.2.1))
                    (ds.set e.2.1 (d + e.2.2.2)) (ts.set e.2.1 node)).2.1.getD i 0 ≠
                  (ws.set e.2.1 (w + e.2.2.1)).getD i 0 ∨
                  (updateValuesAux node w d rest (ws.set e.2.1 (w + e.2.2.1))
                    (ds.set e.2.1 (d + e.2.2.2)) (ts.set e.2.1 node)).2.2.1.getD i 0 ≠
                  (ds.set e.2.1 (d + e.2.2.2)).getD i 0 ∨
                  (updateValuesAux node w d rest (ws.set e.2.1 (w + e.2.2.1))
                    (ds.set e.2.1 (d + e.2.2.2)) (ts.set e.2.1 node)).2.2.2.getD i 0 ≠
                  (ts.set e.2.1 node).getD i 0)
            · exact ih (ws.set e.2.1 (w + e.2.2.1)) (ds.set e.2.1 (d + e.2.2.2))
                (ts.set e.2.1 node) (by simpa using hlen1) (by simpa using hlen2) i hch2
            · push_neg at hch2
              obtain ⟨heq1, heq2, heq3⟩ := hch2
              by_cases hil : i = e.2.1
              · by_cases hlt : e.2.1 < ws.length
                · rw [heq1, hil, getD_set_eq _ _ _ _ hlt]
                  exact hpw
                · exfalso
                  have hle := Nat.le_of_not_lt hlt
                  rcases hch with h | h | h
                  · rw [heq1, List.set_eq_of_length_le hle] at h
                    exact h rfl
                  · rw [heq2, List.set_eq_of_length_le (by rw [← hlen1]; exact hle)]
                      at h
                    exact h rfl
                  · rw [heq3, List.set_eq_of_length_le (by rw [← hlen2]; exact hle)]
                      at h
                    exact h rfl
              · exfalso
                rcases hch with h | h | h
                · rw [heq1, getD_set_ne _ _ _ _ _ hil] at h
                  exact h rfl
                · rw [heq2, getD_set_ne _ _ _ _ _ hil] at h
                  exact h rfl
                · rw [heq3, getD_set_ne _ _ _ _ _ hil] at h
                  exact h rfl
          · have hred : updateValuesAux node w d (e :: rest) ws ds ts =
                updateValuesAux node w d rest ws ds ts := by
              simp only [updateValuesAux]
              rw [if_pos he]
              try dsimp only
              rw [if_pos hpw]
              try dsimp only
              rw [if_neg hlex]
            rw [hred] at hch ⊢
            exact ih ws ds ts hlen1 hlen2 i hch
        · have hred : updateValuesAux node w d (e :: rest) ws ds ts =
              (e :: (updateValuesAux node w d rest ws ds ts).1,
                (updateValuesAux node w d rest ws ds ts).2) := by
            simp only [updateValuesAux]
            rw [if_pos he]
            try dsimp only
            rw [if_neg hpw]
          rw [hred] at hch ⊢
          exact ih ws ds ts hlen1 hlen2 i hch
      · have hred : updateValuesAux node w d (e :: rest) ws ds ts =
            (e :: (updateValuesAux node w d rest ws ds ts).1,
              (updateValuesAux node w d rest ws ds ts).2) := by
          simp only [updateValuesAux]
          rw [if_neg he]
        rw [hred] at hch ⊢
        exact ih ws ds ts hlen1 hlen2 i hch
  · intro f dir row nS nT buckets p st hlen1 hlen2 loc hch
    unfold forwardRoutingStep at hch ⊢
    cases hdm : st.heap.deleteMin with
    | none =>
      rw [hdm] at hch
      rcases hch with h | h | h <;> exact absurd rfl h
    | some pr =>
      obtain ⟨node, heap⟩ := pr
      rw [hdm] at hch
      dsimp only at hch ⊢
      have hfold := foldl_preserves _
        (commitBucket dir row nS nT (heap.getKey node) ((heap.getData node).duration)
          node)
        (commitBucket_guard_inv dir row nS nT (heap.getKey node)
          ((heap.getData node).duration) node st.weights_table st.durations_table
          st.middle_nodes_table)
        (buckets.filter (fun b => b.middle_node == node))
        { st with heap := heap }
        ⟨hlen1, hlen2, fun _ => Or.inl ⟨rfl, rfl, rfl⟩⟩
      obtain ⟨_, _, hloc⟩ := hfold
      rcases hloc loc with ⟨h1, h2, h3⟩ | hge
      · exfalso
        rcases hch with h | h | h
        · exact h h1
        · exact h h2
        · exact h h3
      · exact hge

/-! ## Distance-array preservation lemmas -/

theorem update_values_distances (node : NodeID) (w : EdgeWeight) (d : EdgeDuration)
    (st : OTMState) : (update_values node w d st).distances = st.distances := rfl

theorem insert_node_distances (f : Facade) (dir : Bool) (st : OTMState) (node : NodeID)
    (iw : EdgeWeight) (idur : EdgeDuration) :
    (insert_node f dir st node iw idur).distances = st.distances := rfl

theorem otmSeed_distances (f : Facade) (dir : Bool) (pn : List PhantomNode) (spi : Nat)
    (st : OTMState) : (otmSeed f dir pn spi st).1.distances = st.distances := by
  unfold otmSeed
  dsimp only
  split_ifs <;> rfl

theorem otmLoop_distances (f : Facade) (dir : Bool) (pn : List PhantomNode) (spi : Nat)
    (idxs : List Nat) :
    ∀ (fuel : Nat) (st : OTMState),
      (otmLoop f dir pn spi idxs fuel st).distances = st.distances := by
  intro fuel
  induction fuel with
  | zero => intro st; rfl
  | succ n ih =>
    intro st
    unfold otmLoop
    by_cases hempty : (st.heap.isEmpty || st.target_nodes_index.isEmpty) = true
    · rw [if_pos hempty]
    · rw [if_neg hempty]
      cases hdm : st.heap.deleteMin with
      | none => rfl
      | some pr =>
        obtain ⟨node, heap⟩ := pr
        dsimp only
        rw [ih]
        rfl

theorem buildTargetIndex_distances_length (dir : Bool) (pn : List PhantomNode)
    (idxs : List Nat) (st : OTMState) :
    (buildTargetIndex dir pn idxs st).distances.length = st.distances.length := by
  unfold buildTargetIndex
  apply foldl_preserves
    (fun s : OTMState => s.distances.length = st.distances.length)
  · intro b a hb
    dsimp only
    split_ifs <;> simp [OTMState.setDistance, hb]
  · rfl

theorem commitBucket_distances (dir : Bool) (row nS nT : Nat) (sw : EdgeWeight)
    (sd : EdgeDuration) (node : NodeID) (st : MTMState) (b : NodeBucket) :
    (commitBucket dir row nS nT sw sd node st b).distances_table =
      st.distances_table := by
  unfold commitBucket
  dsimp only
  split_ifs <;> rfl

theorem forwardRoutingStep_distances (f : Facade) (dir : Bool) (row nS nT : Nat)
    (buckets : List NodeBucket) (p : PhantomNode) (st : MTMState) :
    (forwardRoutingStep f dir row nS nT buckets p st).distances_table =
      st.distances_table := by
  unfold forwardRoutingStep
  cases hdm : st.heap.deleteMin with
  | none => rfl
  | some pr =>
    obtain ⟨node, heap⟩ := pr
    dsimp only
    exact foldl_preserves
      (fun s : MTMState => s.distances_table = st.distances_table) _
      (fun b a hb => by dsimp only; rw [commitBucket_distances]; exact hb) _ _ rfl

theorem mtmForwardLoop_distances (f : Facade) (dir : Bool) (row nS nT : Nat)
    (buckets : List NodeBucket) (p : PhantomNode) :
    ∀ (fuel : Nat) (st : MTMState),
      (mtmForwardLoop f dir row nS nT buckets p fuel st).distances_table =
        st.distances_table := by
  intro fuel
  induction fuel with
  | zero => intro st; rfl
  | succ n ih =>
    intro st
    unfold mtmForwardLoop
    by_cases hempty : st.heap.isEmpty = true
    · rw [if_pos hempty]
    · rw [if_neg hempty]
      dsimp only
      rw [ih, forwardRoutingStep_distances]

/-- C4 (amended): with `calculate_distance = false` the bidirectional driver
returns an empty distance array, while the one-to-many driver returns a
distance array of `|phantom_indices|` entries (sentinel- and
offset-populated), for every input. -/
theorem c4_amended_distance_array_shape :
    (∀ (dir : Bool) (fuel : Nat) (f : Facade) (pn : List PhantomNode)
        (si ti : List Nat),
        (mldManyToManySearch dir fuel f pn si ti false).2 = [])
    ∧ (∀ (dir : Bool) (fuel : Nat) (f : Facade) (pn : List PhantomNode)
        (spi : Nat) (pidx : List Nat),
        (oneToManySearch dir fuel f pn spi pidx false).2.length = pidx.length) := by
  constructor
  · intro dir fuel f pn si ti
    unfold mldManyToManySearch mldManyToManySearchState
    dsimp only
    apply foldl_preserves (fun s : MTMState => s.distances_table = [])
    · intro b a hb
      dsimp only
      rw [if_neg (by decide : ¬(false = true)), mtmForwardLoop_distances]
      exact hb
    · rfl
  · intro dir fuel f pn spi pidx
    unfold oneToManySearch oneToManySearchState
    dsimp only
    rw [if_neg (by decide : ¬(false = true)), otmLoop_distances, otmSeed_distances,
      buildTargetIndex_distances_length]
    simp

/-- C4 (as stated) is false: a one-to-many call with `want_distance = false`
still returns a distance array with one entry per target, not an empty
one. -/
theorem c4_counterexample_nonempty_distances :
    (oneToManySearch FORWARD_DIRECTION 5 trivialFacade [pBothAt 0] 0 [0] false).2 ≠
      [] := by decide

/-- C3: at the failing input — source phantom 1, single target slot for
phantom 0, the target unreachable from the source — the distance loop still
forces the cell to 0 through `target_phantom_index == source_phantom_index %
phantom_indices.size()` (0 = 1 % 1) although source and target are distinct
phantoms; the duration stays at the unreachable sentinel while the distance
reads 0. -/
theorem c3_forced_zero_on_distinct_phantoms :
    oneToManySearch FORWARD_DIRECTION 10 trivialFacade phantomsDistinct 1 [0] true =
      ([MAXIMAL_EDGE_DURATION], [0]) := by decide

/-- C9: at the failing input — `phantom_indices = [1]`, so the distances
array has one slot — the target-index build writes
`distances[target_phantom_index]` with `target_phantom_index = 1`, an index
equal to the array length: an out-of-bounds write. -/
theorem c9_out_of_bounds_distance_write :
    1 ∈ (oneToManySearchState FORWARD_DIRECTION 10 trivialFacade phantomsTail 0 [1]
        false).distWrites ∧
    (oneToManySearchState FORWARD_DIRECTION 10 trivialFacade phantomsTail 0 [1]
        false).distances.length = 1 := by decide

/-- C10 (as stated) is false: a forward step that commits a candidate whose
summed weight happens to equal `INVALID_EDGE_WEIGHT` records a middle node
while the weight cell keeps the sentinel value, breaking the claimed
equivalence. -/
theorem c10_counterexample_sentinel_commit :
    ¬ (((forwardRoutingStep trivialFacade FORWARD_DIRECTION 0 1 1 bucketsSentinel
          pDisabled stSentinel).middle_nodes_table.getD 0 0 = SPECIAL_NODEID) ↔
        ((forwardRoutingStep trivialFacade FORWARD_DIRECTION 0 1 1 bucketsSentinel
          pDisabled stSentinel).weights_table.getD 0 0 = INVALID_EDGE_WEIGHT)) := by
  decide

/-- C10 (amended): the middle-node entry equals `SPECIAL_NODEID` exactly
when the weight entry equals `INVALID_EDGE_WEIGHT`, preserved by every
forward step whose popped node is a real node id and whose committed sums
never hit the sentinel value exactly. -/
theorem c10_amended_tables_coupled (f : Facade) (dir : Bool) (row nS nT : Nat)
    (buckets : List NodeBucket) (p : PhantomNode) (st : MTMState)
    (hlen : st.weights_table.length = st.middle_nodes_table.length)
    (hcoupled : ∀ loc,
      st.middle_nodes_table.getD loc SPECIAL_NODEID = SPECIAL_NODEID ↔
        st.weights_table.getD loc INVALID_EDGE_WEIGHT = INVALID_EDGE_WEIGHT)
    (hpop : match st.heap.deleteMin with
      | none => True
      | some (node, heap) => node ≠ SPECIAL_NODEID ∧
          ∀ b ∈ buckets, heap.getKey node + b.weight ≠ INVALID_EDGE_WEIGHT) :
    ∀ loc,
      (forwardRoutingStep f dir row nS nT buckets p st).middle_nodes_table.getD loc
          SPECIAL_NODEID = SPECIAL_NODEID ↔
        (forwardRoutingStep f dir row nS nT buckets p st).weights_table.getD loc
          INVALID_EDGE_WEIGHT = INVALID_EDGE_WEIGHT := by
  unfold forwardRoutingStep
  cases hdm : st.heap.deleteMin with
  | none => exact hcoupled
  | some pr =>
    obtain ⟨node, heap⟩ := pr
    rw [hdm] at hpop
    obtain ⟨hnode, hweights⟩ := hpop
    dsimp only
    have hfold := foldl_preserves_mem
      (fun s : MTMState =>
        s.weights_table.length = s.middle_nodes_table.length ∧
        ∀ loc, (s.middle_nodes_table.getD loc SPECIAL_NODEID = SPECIAL_NODEID ↔
          s.weights_table.getD loc INVALID_EDGE_WEIGHT = INVALID_EDGE_WEIGHT))
      (commitBucket dir row nS nT (heap.getKey node) ((heap.getData node).duration)
        node)
      (buckets.filter (fun b => b.middle_node == node))
      (fun s b hmem hb => by
        obtain ⟨hbl, hbc⟩ := hb
        unfold commitBucket
        dsimp only
        by_cases hc : 0 ≤ heap.getKey node + b.weight ∧
            lexLt (heap.getKey node + b.weight,
              (heap.getData node).duration + b.duration)
            (s.weights_table.getD
              (resultLocation dir row b.column_index nS nT) 0,
              s.durations_table.getD
              (resultLocation dir row b.column_index nS nT) 0) = true
        · rw [if_pos hc]
          refine ⟨by simp [hbl], ?_⟩
          intro loc
          dsimp only
          by_cases hil : loc = resultLocation dir row b.column_index nS nT
          · by_cases hlt : resultLocation dir row b.column_index nS nT <
                s.weights_table.length
            · rw [hil, getD_set_eq _ _ _ _ hlt,
                getD_set_eq _ _ _ _ (by rw [← hbl]; exact hlt)]
              constructor
              · intro hm; exact absurd hm hnode
              · intro hw
                exact absurd hw
                  (hweights b (List.mem_of_mem_filter hmem))
            · have hle := Nat.le_of_not_lt hlt
              rw [getD_set_oob _ _ _ _ _ hle,
                getD_set_oob _ _ _ _ _ (by rw [← hbl]; exact hle)]
              exact hbc loc
          · rw [getD_set_ne _ _ _ _ _ hil, getD_set_ne _ _ _ _ _ hil]
            exact hbc loc
        · rw [if_neg hc]
          exact ⟨hbl, hbc⟩)
      { st with heap := heap }
      ⟨hlen, hcoupled⟩
    exact hfold.2

theorem c10_amended_tables_coupled_witness :
    (forwardRoutingStep trivialFacade FORWARD_DIRECTION 0 1 1 bucketsBenign pDisabled
        stSentinel).middle_nodes_table.getD 0 SPECIAL_NODEID = SPECIAL_NODEID ↔
      (forwardRoutingStep trivialFacade FORWARD_DIRECTION 0 1 1 bucketsBenign pDisabled
        stSentinel).weights_table.getD 0 INVALID_EDGE_WEIGHT = INVALID_EDGE_WEIGHT :=
  c10_amended_tables_coupled trivialFacade FORWARD_DIRECTION 0 1 1 bucketsBenign
    pDisabled stSentinel (by decide)
    (fun loc => by cases loc <;> exact ⟨fun _ => rfl, fun _ => rfl⟩)
    (by
      show (0 : NodeID) ≠ SPECIAL_NODEID ∧ ∀ b ∈ bucketsBenign,
        (QueryHeap.getKey ⟨[(0, ⟨5, ⟨0, false, 0⟩, false⟩)], [0]⟩ 0) + b.weight ≠
          INVALID_EDGE_WEIGHT
      decide)
    0

theorem c2_commit_guard_witness :
    ((updateValuesAux 0 0 0 [(0, 0, 5, 7)] [INVALID_EDGE_WEIGHT]
        [MAXIMAL_EDGE_DURATION] [SPECIAL_NODEID]).2.1.getD 0 0 ≠
      ([INVALID_EDGE_WEIGHT] : List EdgeWeight).getD 0 0) ∧
    0 ≤ (updateValuesAux 0 0 0 [(0, 0, 5, 7)] [INVALID_EDGE_WEIGHT]
        [MAXIMAL_EDGE_DURATION] [SPECIAL_NODEID]).2.1.getD 0 0 :=
  ⟨by decide,
    c2_commit_guard.1 0 0 0 [(0, 0, 5, 7)] [INVALID_EDGE_WEIGHT]
      [MAXIMAL_EDGE_DURATION] [SPECIAL_NODEID] (by decide) (by decide) 0
      (Or.inl (by decide))⟩

end OsrmMld
